import Mathlib

/-! zooming-element: gesture recogniser and zoom/pan transform engine

A shallow embedding of `src/index.js`.

* JavaScript numbers are modelled by exact rationals `ℚ`; clock readings
  (`new Date().getTime()`) by integers.  `Math.sqrt` and `Math.cos` have no
  rational counterpart and are taken as function parameters (`sqrt`, `swing`).
* The mutable fields of an `ImageZoom` object are the fields of the structure
  `ImageZoom`; every method is a function that returns the updated object.
* The closure variables of `detectGestures` are the fields of `Gestures`,
  which also owns the target object and a trace of the calls made on the
  target and on the event.
* `requestAnimationFrame(renderFrame)` appends a `RenderFrame` closure record
  to the queue `frames`; `animationFrame` runs the queue.
* DOM work that does not touch the transform state (`triggerEvent`, `update`,
  `setupMarkup`) is not modelled, except that calls of `target.update()` made
  by the recogniser are recorded in its trace.
-/

namespace ZoomingElement

/-- A touch position or an offset, `{x, y}`. -/
structure Point where
  x : ℚ
  y : ℚ
deriving DecidableEq, Repr

/-- The numeric and boolean entries of `this.options`. -/
structure Options where
  tapZoomFactor : ℚ
  zoomOutFactor : ℚ
  animationDuration : ℚ
  maxZoom : ℚ
  minZoom : ℚ
  lockDragAxis : Bool
deriving DecidableEq, Repr

/-- The value of `this.defaults` (index.js 160-173). -/
def defaults : Options :=
  { tapZoomFactor := 2
    zoomOutFactor := 13 / 10
    animationDuration := 300
    maxZoom := 4
    minZoom := 1 / 2
    lockDragAxis := false }

/-- The three `updateProgress` closures handed to `animate`: the ones of
`handleDoubleTap` and `zoomOutAnimation` call
`scaleTo(startZoomFactor + progress * (zoomFactor - startZoomFactor), center)`,
the one of `sanitizeOffsetAnimation` interpolates the offset. -/
inductive FrameFn where
  | zoomProgress (startZoomFactor zoomFactor : ℚ) (center : Point)
  | offsetProgress (startOffset targetOffset : Point)
deriving DecidableEq, Repr

/-- The closure `renderFrame` built by `animate`: its captured `startTime`,
`duration` and `framefn` (the easing is always `this.swing`, and no caller
passes a `callback`). -/
structure RenderFrame where
  startTime : Int
  duration : ℚ
  framefn : FrameFn
deriving DecidableEq, Repr

/-- A touch event as the listeners see it: the page coordinates of
`event.touches` and the clock reading taken while it is handled. -/
structure TouchEvent where
  touches : List Point
  time : Int
deriving DecidableEq, Repr

/-- The state of an `ImageZoom` object.  `containerX`/`containerY` are
`container.offsetWidth`/`offsetHeight`, `posLeft`/`posTop` the page position of
the container used by `getTouches`.  `lastDragPosition` and `lastZoomCenter`
hold `none` for the JavaScript value `false`.  `frames` is the queue of
callbacks registered with `requestAnimationFrame`; `scaleCalls` records the
arguments of every call of `scale`, oldest first; `frameCalls` records every
call `framefn(progress)` made by a `renderFrame` closure, as the closure and the
argument, oldest first. -/
structure ImageZoom where
  options : Options
  containerX : ℚ
  containerY : ℚ
  posLeft : ℚ
  posTop : ℚ
  zoomFactor : ℚ
  lastScale : ℚ
  offset : Point
  lastDragPosition : Option Point
  lastZoomCenter : Option Point
  nthZoom : Nat
  hasInteraction : Bool
  inAnimation : Bool
  enabled : Bool
  frames : List RenderFrame
  scaleCalls : List (ℚ × Point)
  frameCalls : List (RenderFrame × ℚ)
deriving DecidableEq, Repr

/-- The object right after the constructor (index.js 174-185): zoom factor 1,
offset `{0, 0}`, enabled, nothing scheduled. -/
def construct (options : Options) (containerX containerY posLeft posTop : ℚ) : ImageZoom :=
  { options := options
    containerX := containerX
    containerY := containerY
    posLeft := posLeft
    posTop := posTop
    zoomFactor := 1
    lastScale := 1
    offset := ⟨0, 0⟩
    lastDragPosition := none
    lastZoomCenter := none
    nthZoom := 0
    hasInteraction := false
    inAnimation := false
    enabled := true
    frames := []
    scaleCalls := []
    frameCalls := [] }

/-- Source `isCloseTo` (index.js 17-19). -/
def isCloseTo (value expected : ℚ) : Bool :=
  decide (value > expected - 1 / 100 ∧ value < expected + 1 / 100)

namespace ImageZoom

/-- Source `getContainerX`. -/
def getContainerX (s : ImageZoom) : ℚ := s.containerX

/-- Source `getContainerY`. -/
def getContainerY (s : ImageZoom) : ℚ := s.containerY

/-- Source `getTouches` (index.js 419-428). -/
def getTouches (s : ImageZoom) (event : TouchEvent) : List Point :=
  event.touches.map (fun touch => ⟨touch.x - s.posLeft, touch.y - s.posTop⟩)

/-- Source `getVectorAvg` (index.js 312-317); on an empty list the source
raises a `TypeError`, the model returns the origin. -/
def getVectorAvg (vectors : List Point) : Point :=
  { x := (vectors.map (fun v => v.x)).sum / vectors.length
    y := (vectors.map (fun v => v.y)).sum / vectors.length }

/-- Source `getTouchCenter`. -/
def getTouchCenter (touches : List Point) : Point := getVectorAvg touches

/-- Source `addOffset` (index.js 319-324). -/
def addOffset (s : ImageZoom) (offset : Point) : ImageZoom :=
  { s with offset := ⟨s.offset.x + offset.x, s.offset.y + offset.y⟩ }

/-- Source `sanitizeOffset` (index.js 256-268). -/
def sanitizeOffset (s : ImageZoom) (offset : Point) : Point :=
  let maxX := (s.zoomFactor - 1) * s.getContainerX
  let maxY := (s.zoomFactor - 1) * s.getContainerY
  let maxOffsetX := max maxX 0
  let maxOffsetY := max maxY 0
  let minOffsetX := min maxX 0
  let minOffsetY := min maxY 0
  { x := min (max offset.x minOffsetX) maxOffsetX
    y := min (max offset.y minOffsetY) maxOffsetY }

/-- Source `isInsaneOffset` (index.js 334-338). -/
def isInsaneOffset (s : ImageZoom) (offset : Point) : Bool :=
  decide ((s.sanitizeOffset offset).x ≠ offset.x ∨ (s.sanitizeOffset offset).y ≠ offset.y)

/-- Source `scaleZoomFactor` (index.js 279-284): the updated object and the
returned ratio `this.zoomFactor / originalZoomFactor`. -/
def scaleZoomFactor (s : ImageZoom) (scale : ℚ) : ImageZoom × ℚ :=
  let originalZoomFactor := s.zoomFactor
  let zoomFactor := min s.options.maxZoom (max (s.zoomFactor * scale) s.options.minZoom)
  ({ s with zoomFactor := zoomFactor }, zoomFactor / originalZoomFactor)

/-- Source `scale` (index.js 272-278); the call is also recorded in
`scaleCalls`. -/
def scale (s : ImageZoom) (scale : ℚ) (center : Point) : ImageZoom :=
  let s0 := { s with scaleCalls := s.scaleCalls ++ [(scale, center)] }
  let s1 := (s0.scaleZoomFactor scale).1
  let _scale := (s0.scaleZoomFactor scale).2
  s1.addOffset
    { x := (_scale - 1) * (center.x + s1.offset.x)
      y := (_scale - 1) * (center.y + s1.offset.y) }

/-- Source `scaleTo` (index.js 269-271). -/
def scaleTo (s : ImageZoom) (zoomFactor : ℚ) (center : Point) : ImageZoom :=
  s.scale (zoomFactor / s.zoomFactor) center

/-- Source `drag` (index.js 285-306); `lastCenter = none` is the falsy
`lastCenter` of the source. -/
def drag (s : ImageZoom) (center : Point) (lastCenter : Option Point) : ImageZoom :=
  match lastCenter with
  | none => s
  | some lastCenter =>
    if s.options.lockDragAxis then
      if |center.x - lastCenter.x| > |center.y - lastCenter.y| then
        s.addOffset { x := -(center.x - lastCenter.x), y := 0 }
      else
        s.addOffset { y := -(center.y - lastCenter.y), x := 0 }
    else
      s.addOffset { y := -(center.y - lastCenter.y), x := -(center.x - lastCenter.x) }

/-- Source `getCurrentZoomCenter` (index.js 386-413). -/
def getCurrentZoomCenter (s : ImageZoom) : Point :=
  let length := s.containerX * s.zoomFactor
  let offsetLeft := s.offset.x
  let offsetRight := length - offsetLeft - s.containerX
  let widthOffsetRatio := offsetLeft / offsetRight
  let centerX := widthOffsetRatio * s.containerX / (widthOffsetRatio + 1)
  let height := s.containerY * s.zoomFactor
  let offsetTop := s.offset.y
  let offsetBottom := height - offsetTop - s.containerY
  let heightOffsetRatio := offsetTop / offsetBottom
  let centerY := heightOffsetRatio * s.containerY / (heightOffsetRatio + 1)
  { x := if offsetRight = 0 then s.containerX else centerX
    y := if offsetBottom = 0 then s.containerY else centerY }

/-- Source `canDrag` (index.js 415-417). -/
def canDrag (s : ImageZoom) : Bool := !isCloseTo s.zoomFactor 1

/-- Source `stopAnimation` (index.js 459-461). -/
def stopAnimation (s : ImageZoom) : ImageZoom := { s with inAnimation := false }

/-- Source `animate` (index.js 430-457) up to its return: the closure
`renderFrame` is built with `startTime = now`, the flag is set and the closure
is handed to `requestAnimationFrame`. -/
def animate (s : ImageZoom) (now : Int) (duration : ℚ) (framefn : FrameFn) : ImageZoom :=
  { s with inAnimation := true, frames := s.frames ++ [⟨now, duration, framefn⟩] }

/-- One call of an `updateProgress` closure with argument `progress`. -/
def updateProgress (s : ImageZoom) (f : FrameFn) (progress : ℚ) : ImageZoom :=
  match f with
  | .zoomProgress startZoomFactor zoomFactor center =>
    s.scaleTo (startZoomFactor + progress * (zoomFactor - startZoomFactor)) center
  | .offsetProgress startOffset targetOffset =>
    { s with offset :=
        { x := startOffset.x + progress * (targetOffset.x - startOffset.x)
          y := startOffset.y + progress * (targetOffset.y - startOffset.y) } }

/-- One run of the closure `renderFrame` (index.js 432-454) at clock reading
`now`; `swing` stands for `this.swing`.  Each call of `framefn` is also
recorded in `frameCalls`. -/
def renderFrame (s : ImageZoom) (swing : ℚ → ℚ) (now : Int) (r : RenderFrame) : ImageZoom :=
  if !s.inAnimation then s
  else
    let frameTime : ℚ := ((now - r.startTime : Int) : ℚ)
    let progress := frameTime / r.duration
    if frameTime ≥ r.duration then
      let s1 := s.updateProgress r.framefn 1
      { s1 with frameCalls := s1.frameCalls ++ [(r, 1)] }.stopAnimation
    else
      let s1 := s.updateProgress r.framefn (swing progress)
      { s1 with frameCalls := s1.frameCalls ++ [(r, swing progress)],
                frames := s1.frames ++ [r] }

/-- One display frame: every callback registered with `requestAnimationFrame`
since the previous frame runs once, in registration order. -/
def animationFrame (s : ImageZoom) (swing : ℚ → ℚ) (now : Int) : ImageZoom :=
  s.frames.foldl (fun acc r => acc.renderFrame swing now r) { s with frames := [] }

/-- Source `sanitizeOffsetAnimation` (index.js 340-357). -/
def sanitizeOffsetAnimation (s : ImageZoom) (now : Int) : ImageZoom :=
  let targetOffset := s.sanitizeOffset s.offset
  let startOffset : Point := { x := s.offset.x, y := s.offset.y }
  s.animate now s.options.animationDuration (.offsetProgress startOffset targetOffset)

/-- Source `zoomOutAnimation` (index.js 359-372). -/
def zoomOutAnimation (s : ImageZoom) (now : Int) : ImageZoom :=
  let startZoomFactor := s.zoomFactor
  let zoomFactor : ℚ := 1
  let center := s.getCurrentZoomCenter
  s.animate now s.options.animationDuration (.zoomProgress startZoomFactor zoomFactor center)

/-- Source `sanitize` (index.js 326-332). -/
def sanitize (s : ImageZoom) (now : Int) : ImageZoom :=
  if s.zoomFactor < s.options.zoomOutFactor then
    s.zoomOutAnimation now
  else if s.isInsaneOffset s.offset then
    s.sanitizeOffsetAnimation now
  else s

/-- Source `end` (index.js 496-500). -/
def «end» (s : ImageZoom) (now : Int) : ImageZoom :=
  ({ s with hasInteraction := false }).sanitize now

/-- Source `handleDrag` (index.js 196-203).  When the event carries no touch,
`touch` is `undefined` in the source (and `drag` raises a `TypeError` if a last
position is recorded); the model then only sanitises the offset. -/
def handleDrag (s : ImageZoom) (event : TouchEvent) : ImageZoom :=
  if s.zoomFactor > 1 then
    match s.getTouches event with
    | touch :: _ =>
      let s1 := s.drag touch s.lastDragPosition
      { s1 with offset := s1.sanitizeOffset s1.offset, lastDragPosition := some touch }
    | [] => { s with offset := s.sanitizeOffset s.offset, lastDragPosition := none }
  else s

/-- Source `handleDragStart` (index.js 188-194). -/
def handleDragStart (s : ImageZoom) (event : TouchEvent) : ImageZoom :=
  ({ s.stopAnimation with lastDragPosition := none, hasInteraction := true }).handleDrag event

/-- Source `handleDragEnd` (index.js 205-208). -/
def handleDragEnd (s : ImageZoom) (now : Int) : ImageZoom := s.end now

/-- Source `handleZoomStart` (index.js 210-217). -/
def handleZoomStart (s : ImageZoom) : ImageZoom :=
  { s.stopAnimation with
    lastScale := 1, nthZoom := 0, lastZoomCenter := none, hasInteraction := true }

/-- Source `handleZoom` (index.js 218-231). -/
def handleZoom (s : ImageZoom) (event : TouchEvent) (newScale : ℚ) : ImageZoom :=
  let touchCenter := getTouchCenter (s.getTouches event)
  let scale := newScale / s.lastScale
  let s1 := { s with lastScale := newScale, nthZoom := s.nthZoom + 1 }
  let s2 :=
    if s1.nthZoom > 3 then
      (s1.scale scale touchCenter).drag touchCenter s1.lastZoomCenter
    else s1
  { s2 with lastZoomCenter := some touchCenter }

/-- Source `handleZoomEnd` (index.js 233-236). -/
def handleZoomEnd (s : ImageZoom) (now : Int) : ImageZoom := s.end now

/-- Source `handleDoubleTap` (index.js 238-255); an event without touches
(`center` undefined in the source) is given the origin as centre. -/
def handleDoubleTap (s : ImageZoom) (event : TouchEvent) : ImageZoom :=
  let center := (s.getTouches event).headD ⟨0, 0⟩
  let zoomFactor := if s.zoomFactor > 1 then 1 else s.options.tapZoomFactor
  let startZoomFactor := s.zoomFactor
  if s.hasInteraction then s
  else
    let center := if startZoomFactor > zoomFactor then s.getCurrentZoomCenter else center
    s.animate event.time s.options.animationDuration
      (.zoomProgress startZoomFactor zoomFactor center)

/-- Source `enable`. -/
def enable (s : ImageZoom) : ImageZoom := { s with enabled := true }

/-- Source `disable`. -/
def disable (s : ImageZoom) : ImageZoom := { s with enabled := false }

end ImageZoom

/-- The value of the closure variable `interaction`: `null`, `'zoom'` or
`'drag'`. -/
inductive Interaction where
  | null
  | zoom
  | drag
deriving DecidableEq, Repr

/-- The calls `detectGestures` makes on its target and on the event. -/
inductive Call where
  | handleZoomStart
  | handleZoomEnd
  | handleDragStart
  | handleDragEnd
  | handleDoubleTap
  | handleZoom (newScale : ℚ)
  | handleDrag
  | update
  | stopPropagation
  | preventDefault
deriving DecidableEq, Repr

/-- The closure state of `detectGestures` (index.js 22-25, 113) together with
its target and the trace of the calls made so far, oldest first.
`startTouches` is `[]` while the source variable is `null`. -/
structure Gestures where
  interaction : Interaction
  fingers : Nat
  lastTouchStart : Option Int
  startTouches : List Point
  firstMove : Bool
  target : ImageZoom
  calls : List Call
deriving DecidableEq, Repr

/-- The state right after `detectGestures(el, target)` returns. -/
def detectGestures (target : ImageZoom) : Gestures :=
  { interaction := .null
    fingers := 0
    lastTouchStart := none
    startTouches := []
    firstMove := true
    target := target
    calls := [] }

namespace Gestures

/-- Source `setInteraction` (index.js 27-50). -/
def setInteraction (g : Gestures) (newInteraction : Interaction) (event : TouchEvent) :
    Gestures :=
  let g2 :=
    if g.interaction ≠ newInteraction then
      let g1 :=
        if g.interaction ≠ .null ∧ newInteraction = .null then
          match g.interaction with
          | .zoom =>
            { g with target := g.target.handleZoomEnd event.time, calls := g.calls ++ [.handleZoomEnd] }
          | .drag =>
            { g with target := g.target.handleDragEnd event.time, calls := g.calls ++ [.handleDragEnd] }
          | .null => g
        else g
      match newInteraction with
      | .zoom =>
        { g1 with target := g1.target.handleZoomStart, calls := g1.calls ++ [.handleZoomStart] }
      | .drag =>
        { g1 with target := g1.target.handleDragStart event, calls := g1.calls ++ [.handleDragStart] }
      | .null => g1
    else g
  { g2 with interaction := newInteraction }

/-- Source `updateInteraction` (index.js 52-60). -/
def updateInteraction (g : Gestures) (event : TouchEvent) : Gestures :=
  if g.fingers = 2 then
    g.setInteraction .zoom event
  else if g.fingers = 1 ∧ g.target.canDrag = true then
    g.setInteraction .drag event
  else
    g.setInteraction .null event

/-- Source `targetTouches` (index.js 62-67). -/
def targetTouches (event : TouchEvent) : List Point :=
  event.touches.map (fun touch => ⟨touch.x, touch.y⟩)

/-- Source `getDistance` (index.js 69-75); `sqrt` stands for `Math.sqrt`. -/
def getDistance (sqrt : ℚ → ℚ) (a b : Point) : ℚ :=
  let x := a.x - b.x
  let y := a.y - b.y
  sqrt ((x * x) + (y * y))

/-- Source `calculateScale` (index.js 77-81); a missing touch (a `TypeError`
in the source) is read as the origin. -/
def calculateScale (sqrt : ℚ → ℚ) (startTouches endTouches : List Point) : ℚ :=
  let startDistance := getDistance sqrt (startTouches.getD 0 ⟨0, 0⟩) (startTouches.getD 1 ⟨0, 0⟩)
  let endDistance := getDistance sqrt (endTouches.getD 0 ⟨0, 0⟩) (endTouches.getD 1 ⟨0, 0⟩)
  endDistance / startDistance

/-- Source `cancelEvent` (index.js 83-86). -/
def cancelEvent (g : Gestures) : Gestures :=
  { g with calls := g.calls ++ [.stopPropagation, .preventDefault] }

/-- Source `detectDoubleTap` (index.js 88-112); `time` is `event.time`, and
`time - lastTouchStart` with `lastTouchStart = null` is `time - 0`. -/
def detectDoubleTap (g : Gestures) (event : TouchEvent) : Gestures :=
  let time := event.time
  let g1 : Gestures := if g.fingers > 1 then { g with lastTouchStart := none } else g
  let g2 : Gestures :=
    if time - g1.lastTouchStart.getD 0 < 300 then
      let g3 : Gestures := g1.cancelEvent
      let g4 : Gestures := { g3 with target := g3.target.handleDoubleTap event, calls := g3.calls ++ [.handleDoubleTap] }
      match g4.interaction with
      | .zoom =>
        { g4 with target := g4.target.handleZoomEnd event.time, calls := g4.calls ++ [.handleZoomEnd] }
      | .drag =>
        { g4 with target := g4.target.handleDragEnd event.time, calls := g4.calls ++ [.handleDragEnd] }
      | .null => g4
    else g1
  if g2.fingers = 1 then { g2 with lastTouchStart := some time } else g2

/-- The `touchstart` listener (index.js 115-121). -/
def touchstart (g : Gestures) (event : TouchEvent) : Gestures :=
  if g.target.enabled then
    ({ g with firstMove := true, fingers := event.touches.length }).detectDoubleTap event
  else g

/-- The `touchmove` listener (index.js 123-148). -/
def touchmove (g : Gestures) (sqrt : ℚ → ℚ) (event : TouchEvent) : Gestures :=
  if g.target.enabled then
    let g1 :=
      if g.firstMove then
        let g2 := g.updateInteraction event
        let g3 := if g2.interaction ≠ .null then g2.cancelEvent else g2
        { g3 with startTouches := targetTouches event }
      else
        let g2 :=
          match g.interaction with
          | .zoom =>
            let newScale := calculateScale sqrt g.startTouches (targetTouches event)
            { g with target := g.target.handleZoom event newScale, calls := g.calls ++ [.handleZoom newScale] }
          | .drag =>
            { g with target := g.target.handleDrag event, calls := g.calls ++ [.handleDrag] }
          | .null => g
        if g2.interaction ≠ .null then
          let g3 := g2.cancelEvent
          { g3 with calls := g3.calls ++ [.update] }
        else g2
    { g1 with firstMove := false }
  else g

/-- The `touchend` listener (index.js 150-155). -/
def touchend (g : Gestures) (event : TouchEvent) : Gestures :=
  if g.target.enabled then
    ({ g with fingers := event.touches.length }).updateInteraction event
  else g

end Gestures

/-- The value "`v` clamped into `[lo, hi]`" of the specification. -/
def clamp (lo hi v : ℚ) : ℚ :=
  if v < lo then lo else if v > hi then hi else v

/-- The operations on the transform state: the public `scale`, `scaleTo` and
`drag`, the gesture callbacks, one call of an animation's `updateProgress`
closure, one run of a `renderFrame` closure and one whole display frame. -/
inductive Op where
  | scale (scale : ℚ) (center : Point)
  | scaleTo (zoomFactor : ℚ) (center : Point)
  | drag (center : Point) (lastCenter : Option Point)
  | handleDragStart (event : TouchEvent)
  | handleDrag (event : TouchEvent)
  | handleDragEnd (now : Int)
  | handleZoomStart
  | handleZoom (event : TouchEvent) (newScale : ℚ)
  | handleZoomEnd (now : Int)
  | handleDoubleTap (event : TouchEvent)
  | updateProgress (f : FrameFn) (progress : ℚ)
  | renderFrame (swing : ℚ → ℚ) (now : Int) (r : RenderFrame)
  | animationFrame (swing : ℚ → ℚ) (now : Int)

/-- The object after one operation. -/
def Op.apply (s : ImageZoom) : Op → ImageZoom
  | .scale rel center => s.scale rel center
  | .scaleTo factor center => s.scaleTo factor center
  | .drag center lastCenter => s.drag center lastCenter
  | .handleDragStart event => s.handleDragStart event
  | .handleDrag event => s.handleDrag event
  | .handleDragEnd now => s.handleDragEnd now
  | .handleZoomStart => s.handleZoomStart
  | .handleZoom event newScale => s.handleZoom event newScale
  | .handleZoomEnd now => s.handleZoomEnd now
  | .handleDoubleTap event => s.handleDoubleTap event
  | .updateProgress f progress => s.updateProgress f progress
  | .renderFrame swing now r => s.renderFrame swing now r
  | .animationFrame swing now => s.animationFrame swing now

/-- The zoom bounds of the object's own options hold for its zoom factor. -/
def ZoomInBounds (s : ImageZoom) : Prop :=
  s.options.minZoom ≤ s.zoomFactor ∧ s.zoomFactor ≤ s.options.maxZoom

/-- The invariant carried along a run: the options are ordered and the zoom
factor lies within them. -/
def Good (s : ImageZoom) : Prop :=
  s.options.minZoom ≤ s.options.maxZoom ∧ ZoomInBounds s

/-- The entry rule of the specification: the mode prescribed for a finger
count and a value of `canDrag()`. -/
def entryRule (fingers : Nat) (canDrag : Bool) : Interaction :=
  if fingers = 2 then .zoom
  else if fingers = 1 ∧ canDrag = true then .drag
  else .null

/-- The `End` callback that matches a mode, as a list of calls. -/
def endCallback : Interaction → List Call
  | .zoom => [.handleZoomEnd]
  | .drag => [.handleDragEnd]
  | .null => []

/-- A recogniser in the middle of a pinch: the object was zoomed to factor 2
by `scale(2, {0, 0})`, two fingers went down and moved once. -/
def pinching : Gestures :=
  ((detectGestures ((construct defaults 300 200 0 0).scale 2 ⟨0, 0⟩)).touchstart
      ⟨[⟨10, 10⟩, ⟨110, 10⟩], 1000⟩).touchmove (fun _ => 0) ⟨[⟨10, 10⟩, ⟨110, 10⟩], 1010⟩

/-- A recogniser whose object was zoomed to factor 2 about `{-10, 0}`, which
leaves the offset at `{-10, 0}`, below the sanitised range `[0, 300]`. -/
def zoomedOffBounds : Gestures :=
  detectGestures ((construct defaults 300 200 0 0).scale 2 ⟨-10, 0⟩)

/-- The test of `detectDoubleTap` at index.js 95, evaluated after the reset of
lines 91-93: the recogniser detects a double tap on this event. -/
def doubleTapDetected (g : Gestures) (event : TouchEvent) : Prop :=
  event.time - ((if g.fingers > 1 then none else g.lastTouchStart).getD 0) < 300

instance (g : Gestures) (event : TouchEvent) : Decidable (doubleTapDetected g event) := by
  unfold doubleTapDetected
  infer_instance

/-- A recogniser in the middle of a one-finger drag at zoom factor 2: one
finger went down at time 1000 and moved once. -/
def dragging : Gestures :=
  ((detectGestures ((construct defaults 300 200 0 0).scale 2 ⟨0, 0⟩)).touchstart
      ⟨[⟨10, 10⟩], 1000⟩).touchmove (fun _ => 0) ⟨[⟨10, 10⟩], 1010⟩

/-- The three kinds of touch event the recogniser listens to. -/
inductive Event where
  | touchstart (event : TouchEvent)
  | touchmove (event : TouchEvent)
  | touchend (event : TouchEvent)
deriving DecidableEq, Repr

/-- The listener that handles an event. -/
def Gestures.dispatch (g : Gestures) (sqrt : ℚ → ℚ) : Event → Gestures
  | .touchstart event => g.touchstart event
  | .touchmove event => g.touchmove sqrt event
  | .touchend event => g.touchend event

/-- The recogniser after a sequence of events, first to last. -/
def Gestures.dispatchAll (g : Gestures) (sqrt : ℚ → ℚ) (events : List Event) : Gestures :=
  events.foldl (fun acc ev => acc.dispatch sqrt ev) g

/-- The touch-starts of an event sequence, in order. -/
def touchStarts : List Event → List TouchEvent
  | [] => []
  | .touchstart event :: events => event :: touchStarts events
  | .touchmove _ :: events => touchStarts events
  | .touchend _ :: events => touchStarts events

/-- The double-tap rule of the specification: a touch-start is a double tap
iff it has one finger and the touch-start right before it had one finger and
happened less than 300 ms earlier. -/
def isDoubleTap (previous : Option TouchEvent) (event : TouchEvent) : Bool :=
  match previous with
  | none => false
  | some e0 =>
    decide (event.touches.length = 1 ∧ e0.touches.length = 1 ∧ event.time - e0.time < 300)

/-- The timestamp a touch-start leaves pending for the next one: its time if
it had one finger, nothing otherwise. -/
def pendingTap : Option TouchEvent → Option Int
  | none => none
  | some e0 => if e0.touches.length = 1 then some e0.time else none

/-- The recogniser after a sequence of touch-moves, first to last. -/
def Gestures.touchmoves (g : Gestures) (sqrt : ℚ → ℚ) (events : List TouchEvent) : Gestures :=
  events.foldl (fun acc event => acc.touchmove sqrt event) g

/-- The object after a sequence of `handleZoom(event, newScale)` calls. -/
def ImageZoom.handleZooms (s : ImageZoom) (l : List (TouchEvent × ℚ)) : ImageZoom :=
  l.foldl (fun acc p => acc.handleZoom p.1 p.2) s

/-- The distance between the first two touches of an event, as
`calculateScale` computes it for either of its arguments. -/
def fingerDistance (sqrt : ℚ → ℚ) (event : TouchEvent) : ℚ :=
  Gestures.getDistance sqrt ((Gestures.targetTouches event).getD 0 ⟨0, 0⟩)
    ((Gestures.targetTouches event).getD 1 ⟨0, 0⟩)

/-- The relative factors passed to `scale` between two states of the object,
oldest first. -/
def forwardedFactors (before after : ImageZoom) : List ℚ :=
  (after.scaleCalls.drop before.scaleCalls.length).map Prod.fst

/-- A square-root table for the finger distances 100, 110, 120, 130 and
150. -/
def sqrtTable (q : ℚ) : ℚ :=
  if q = 10000 then 100
  else if q = 12100 then 110
  else if q = 14400 then 120
  else if q = 16900 then 130
  else if q = 22500 then 150
  else 0

/-- A touch event with two fingers on a horizontal line, `d` apart. -/
def twoFingers (d : ℚ) (time : Int) : TouchEvent :=
  ⟨[⟨0, 0⟩, ⟨d, 0⟩], time⟩

/-- A fresh recogniser on which two fingers 100 apart went down and moved
once, which records the start distance 100 and enters Zoom. -/
def pinchStarted : Gestures :=
  ((detectGestures (construct defaults 300 200 0 0)).touchstart (twoFingers 100 1000)).touchmove
    sqrtTable (twoFingers 100 1010)

/-- The object after a sequence of display frames at the given clock
readings, first to last. -/
def ImageZoom.animationFrames (s : ImageZoom) (swing : ℚ → ℚ) (times : List Int) : ImageZoom :=
  times.foldl (fun acc now => acc.animationFrame swing now) s

/-- An object zoomed out to factor `1 / 2` by `scale(1 / 2, {0, 0})` and then
dragged to the offset `{-100, -50}`. -/
def zoomedOut : ImageZoom :=
  ((construct defaults 300 200 0 0).scale (1 / 2) ⟨0, 0⟩).drag ⟨100, 50⟩ (some ⟨0, 0⟩)

/-- A fresh object after a double tap at time 1000, a display frame at 1100
and a second double tap at time 1200: the zoom-in animation of the first tap
is still scheduled when the zoom-out animation of the second is started. -/
def tappedTwice : ImageZoom :=
  (((construct defaults 300 200 0 0).handleDoubleTap ⟨[⟨50, 50⟩], 1000⟩).animationFrame
      (fun p => p) 1100).handleDoubleTap ⟨[⟨50, 50⟩], 1200⟩

/-- The offset is the one that zooming about `c` from the untransformed state
produces at the current zoom factor. -/
def AnchoredAt (c : Point) (u : ImageZoom) : Prop :=
  u.offset = ⟨c.x * (u.zoomFactor - 1), c.y * (u.zoomFactor - 1)⟩

/-- The time a `renderFrame` closure computes as `frameTime` at clock reading
`now`. -/
def RenderFrame.frameTime (r : RenderFrame) (now : Int) : ℚ :=
  ((now - r.startTime : Int) : ℚ)

/-- The start times of the animations whose `framefn` was called between two
states of the object, oldest call first. -/
def frameStarts (before after : ImageZoom) : List Int :=
  (after.frameCalls.drop before.frameCalls.length).map (fun call => call.1.startTime)

/-! ## Theorems -/

/-! ### The transform engine -/

section transform

variable (s : ImageZoom)

@[simp] theorem addOffset_zoomFactor (o : Point) : (s.addOffset o).zoomFactor = s.zoomFactor := rfl
@[simp] theorem addOffset_options (o : Point) : (s.addOffset o).options = s.options := rfl

@[simp] theorem scale_options (r : ℚ) (c : Point) : (s.scale r c).options = s.options := rfl

theorem scale_zoomFactor (r : ℚ) (c : Point) :
    (s.scale r c).zoomFactor
      = min s.options.maxZoom (max (s.zoomFactor * r) s.options.minZoom) := rfl

theorem scale_offset (r : ℚ) (c : Point) :
    (s.scale r c).offset
      = ⟨s.offset.x + ((s.scale r c).zoomFactor / s.zoomFactor - 1) * (c.x + s.offset.x),
         s.offset.y + ((s.scale r c).zoomFactor / s.zoomFactor - 1) * (c.y + s.offset.y)⟩ := rfl

theorem scale_zoomFactor_eq_clamp (r : ℚ) (c : Point)
    (hm : s.options.minZoom ≤ s.options.maxZoom) :
    (s.scale r c).zoomFactor
      = clamp s.options.minZoom s.options.maxZoom (s.zoomFactor * r) := by
  rw [scale_zoomFactor]
  unfold clamp
  split_ifs with h1 h2
  · rw [max_eq_right h1.le, min_eq_right hm]
  · rw [max_eq_left (not_lt.mp h1), min_eq_left h2.le]
  · rw [max_eq_left (not_lt.mp h1), min_eq_right (not_lt.mp h2)]

theorem scale_zoomInBounds (r : ℚ) (c : Point)
    (hm : s.options.minZoom ≤ s.options.maxZoom) : ZoomInBounds (s.scale r c) := by
  unfold ZoomInBounds
  rw [scale_options, scale_zoomFactor]
  exact ⟨le_min hm (le_max_right _ _), min_le_left _ _⟩

end transform

/-- C1: for a state with zoom factor `z > 0` and options with
`minZoom ≤ maxZoom`, after `scale(r, c)` the zoom factor `z'` is `z * r`
clamped into `[minZoom, maxZoom]` (exactly `maxZoom` when `z * r > maxZoom`,
exactly `minZoom` when `z * r < minZoom`), and on each axis the offset becomes
`offset + (z' / z - 1) * (c + offset)`: it is moved by the applied factor
`z' / z`, not by `r`. -/
theorem scale_postcondition (s : ImageZoom) (r : ℚ) (c : Point)
    (_hz : 0 < s.zoomFactor) (hm : s.options.minZoom ≤ s.options.maxZoom) :
    (s.scale r c).zoomFactor = clamp s.options.minZoom s.options.maxZoom (s.zoomFactor * r)
    ∧ (s.zoomFactor * r > s.options.maxZoom → (s.scale r c).zoomFactor = s.options.maxZoom)
    ∧ (s.zoomFactor * r < s.options.minZoom → (s.scale r c).zoomFactor = s.options.minZoom)
    ∧ (s.scale r c).offset.x
        = s.offset.x + ((s.scale r c).zoomFactor / s.zoomFactor - 1) * (c.x + s.offset.x)
    ∧ (s.scale r c).offset.y
        = s.offset.y + ((s.scale r c).zoomFactor / s.zoomFactor - 1) * (c.y + s.offset.y) := by
  have hc := scale_zoomFactor_eq_clamp s r c hm
  refine ⟨hc, ?_, ?_, ?_, ?_⟩
  · intro h
    rw [hc]
    unfold clamp
    rw [if_neg (not_lt.mpr (hm.trans h.le)), if_pos h]
  · intro h
    rw [hc]
    unfold clamp
    rw [if_pos h]
  · rw [scale_offset]
  · rw [scale_offset]

/-- C1, the specification's scenario: `minZoom = 0.5`, `maxZoom = 4`, zoom
factor 1 and relative factor 10 give zoom factor 4, and the offset `(2, 3)` with
centre `(5, 7)` becomes `offset + 3 * (c + offset) = (23, 33)`. -/
theorem scale_postcondition_witness :
    (({ construct defaults 300 200 0 0 with offset := ⟨2, 3⟩ } : ImageZoom).scale 10
        ⟨5, 7⟩).zoomFactor = 4
    ∧ (({ construct defaults 300 200 0 0 with offset := ⟨2, 3⟩ } : ImageZoom).scale 10
        ⟨5, 7⟩).offset = ⟨2 + 3 * (5 + 2), 3 + 3 * (7 + 3)⟩ := by
  have h := scale_postcondition
    ({ construct defaults 300 200 0 0 with offset := ⟨2, 3⟩ } : ImageZoom) 10 ⟨5, 7⟩
    (by norm_num [construct]) (by norm_num [construct, defaults])
  obtain ⟨-, hmax, -, hx, hy⟩ := h
  have hz := hmax (by norm_num [construct, defaults])
  rw [hz] at hx hy
  refine ⟨by rw [hz]; rfl, ?_⟩
  rw [Point.mk.injEq]
  refine ⟨?_, ?_⟩
  · rw [hx]; norm_num [construct, defaults]
  · rw [hy]; norm_num [construct, defaults]

/-- C2: for a state with zoom factor `z > 0` and options with
`0 < minZoom ≤ maxZoom`, `scale(r, c)` keeps the content coordinate under the
centre: `(c + offset') / z' = (c + offset) / z` on each axis, clamped or
not. -/
theorem scale_keeps_center_fixed (s : ImageZoom) (r : ℚ) (c : Point)
    (hz : 0 < s.zoomFactor) (hmin : 0 < s.options.minZoom)
    (hm : s.options.minZoom ≤ s.options.maxZoom) :
    (c.x + (s.scale r c).offset.x) / (s.scale r c).zoomFactor
        = (c.x + s.offset.x) / s.zoomFactor
    ∧ (c.y + (s.scale r c).offset.y) / (s.scale r c).zoomFactor
        = (c.y + s.offset.y) / s.zoomFactor := by
  have hb := scale_zoomInBounds s r c hm
  have hz' : 0 < (s.scale r c).zoomFactor := by
    have := hb.1
    rw [scale_options] at this
    exact lt_of_lt_of_le hmin this
  rw [scale_offset]
  constructor <;>
  · rw [div_eq_div_iff hz'.ne' hz.ne']
    field_simp
    ring

/-- C2 at a clamped call: defaults, zoom factor 1, offset `(2, 3)`, relative
factor 10 about `(5, 7)`. -/
theorem scale_keeps_center_fixed_witness :
    (5 + (({ construct defaults 300 200 0 0 with offset := ⟨2, 3⟩ } : ImageZoom).scale 10
        ⟨5, 7⟩).offset.x)
      / (({ construct defaults 300 200 0 0 with offset := ⟨2, 3⟩ } : ImageZoom).scale 10
        ⟨5, 7⟩).zoomFactor = (5 + 2) / 1
    ∧ (7 + (({ construct defaults 300 200 0 0 with offset := ⟨2, 3⟩ } : ImageZoom).scale 10
        ⟨5, 7⟩).offset.y)
      / (({ construct defaults 300 200 0 0 with offset := ⟨2, 3⟩ } : ImageZoom).scale 10
        ⟨5, 7⟩).zoomFactor = (7 + 3) / 1 :=
  scale_keeps_center_fixed
    ({ construct defaults 300 200 0 0 with offset := ⟨2, 3⟩ } : ImageZoom) 10 ⟨5, 7⟩
    (by norm_num [construct]) (by norm_num [construct, defaults])
    (by norm_num [construct, defaults])

/-! ### The zoom bounds are an invariant -/

theorem Good.of_eq {s s' : ImageZoom} (ho : s'.options = s.options)
    (hz : s'.zoomFactor = s.zoomFactor) (h : Good s) : Good s' := by
  unfold Good ZoomInBounds at *
  rw [ho, hz]
  exact h

theorem Good.scale {s : ImageZoom} (h : Good s) (r : ℚ) (c : Point) : Good (s.scale r c) :=
  ⟨by rw [scale_options]; exact h.1, scale_zoomInBounds s r c h.1⟩

theorem drag_options (s : ImageZoom) (c : Point) (l : Option Point) :
    (s.drag c l).options = s.options := by
  unfold ImageZoom.drag
  cases l with
  | none => rfl
  | some l => simp only; split_ifs <;> rfl

theorem drag_zoomFactor (s : ImageZoom) (c : Point) (l : Option Point) :
    (s.drag c l).zoomFactor = s.zoomFactor := by
  unfold ImageZoom.drag
  cases l with
  | none => rfl
  | some l => simp only; split_ifs <;> rfl

theorem Good.drag {s : ImageZoom} (h : Good s) (c : Point) (l : Option Point) :
    Good (s.drag c l) :=
  h.of_eq (drag_options s c l) (drag_zoomFactor s c l)

theorem handleDrag_options (s : ImageZoom) (e : TouchEvent) :
    (s.handleDrag e).options = s.options := by
  unfold ImageZoom.handleDrag
  split_ifs
  · cases s.getTouches e with
    | nil => rfl
    | cons t ts => exact drag_options s t _
  · rfl

theorem handleDrag_zoomFactor (s : ImageZoom) (e : TouchEvent) :
    (s.handleDrag e).zoomFactor = s.zoomFactor := by
  unfold ImageZoom.handleDrag
  split_ifs
  · cases s.getTouches e with
    | nil => rfl
    | cons t ts => exact drag_zoomFactor s t _
  · rfl

theorem sanitize_options (s : ImageZoom) (now : Int) : (s.sanitize now).options = s.options := by
  unfold ImageZoom.sanitize
  split_ifs <;> rfl

theorem sanitize_zoomFactor (s : ImageZoom) (now : Int) :
    (s.sanitize now).zoomFactor = s.zoomFactor := by
  unfold ImageZoom.sanitize
  split_ifs <;> rfl

theorem sanitize_offset (s : ImageZoom) (now : Int) : (s.sanitize now).offset = s.offset := by
  unfold ImageZoom.sanitize
  split_ifs <;> rfl

theorem end_options (s : ImageZoom) (now : Int) : (s.end now).options = s.options :=
  sanitize_options _ now

theorem end_zoomFactor (s : ImageZoom) (now : Int) : (s.end now).zoomFactor = s.zoomFactor :=
  sanitize_zoomFactor _ now

theorem end_offset (s : ImageZoom) (now : Int) : (s.end now).offset = s.offset :=
  sanitize_offset _ now

theorem handleDoubleTap_options (s : ImageZoom) (e : TouchEvent) :
    (s.handleDoubleTap e).options = s.options := by
  unfold ImageZoom.handleDoubleTap
  simp only
  split_ifs <;> rfl

theorem handleDoubleTap_zoomFactor (s : ImageZoom) (e : TouchEvent) :
    (s.handleDoubleTap e).zoomFactor = s.zoomFactor := by
  unfold ImageZoom.handleDoubleTap
  simp only
  split_ifs <;> rfl

theorem handleDoubleTap_offset (s : ImageZoom) (e : TouchEvent) :
    (s.handleDoubleTap e).offset = s.offset := by
  unfold ImageZoom.handleDoubleTap
  simp only
  split_ifs <;> rfl

theorem Good.handleZoom {s : ImageZoom} (h : Good s) (e : TouchEvent) (newScale : ℚ) :
    Good (s.handleZoom e newScale) := by
  unfold ImageZoom.handleZoom
  simp only
  split_ifs
  · refine Good.of_eq (s := (ImageZoom.scale _ _ _).drag _ _) rfl rfl ?_
    refine Good.drag (Good.scale ?_ _ _) _ _
    exact h.of_eq rfl rfl
  · exact h.of_eq rfl rfl

theorem Good.updateProgress {s : ImageZoom} (h : Good s) (f : FrameFn) (p : ℚ) :
    Good (s.updateProgress f p) := by
  cases f with
  | zoomProgress a b c => exact h.scale _ _
  | offsetProgress a b => exact h.of_eq rfl rfl

theorem Good.renderFrame {s : ImageZoom} (h : Good s) (swing : ℚ → ℚ) (now : Int)
    (r : RenderFrame) : Good (s.renderFrame swing now r) := by
  unfold ImageZoom.renderFrame
  simp only
  split_ifs
  · exact h
  · exact (h.updateProgress _ _).of_eq rfl rfl
  · exact (h.updateProgress _ _).of_eq rfl rfl

theorem Good.foldl_renderFrame (swing : ℚ → ℚ) (now : Int) (rs : List RenderFrame) :
    ∀ s : ImageZoom, Good s →
      Good (rs.foldl (fun acc r => acc.renderFrame swing now r) s) := by
  induction rs with
  | nil => intro s h; exact h
  | cons r rs ih => intro s h; exact ih _ (h.renderFrame swing now r)

theorem Good.apply {s : ImageZoom} (h : Good s) (op : Op) : Good (op.apply s) := by
  cases op with
  | scale r c => exact h.scale r c
  | scaleTo f c => exact h.scale _ c
  | drag c l => exact h.drag c l
  | handleDragStart e =>
    exact Good.of_eq (s := ({ s.stopAnimation with
      lastDragPosition := none, hasInteraction := true } : ImageZoom))
      (handleDrag_options _ e) (handleDrag_zoomFactor _ e) (h.of_eq rfl rfl)
  | handleDrag e => exact h.of_eq (handleDrag_options s e) (handleDrag_zoomFactor s e)
  | handleDragEnd now => exact h.of_eq (end_options s now) (end_zoomFactor s now)
  | handleZoomStart => exact h.of_eq rfl rfl
  | handleZoom e n => exact h.handleZoom e n
  | handleZoomEnd now => exact h.of_eq (end_options s now) (end_zoomFactor s now)
  | handleDoubleTap e =>
    exact h.of_eq (handleDoubleTap_options s e) (handleDoubleTap_zoomFactor s e)
  | updateProgress f p => exact h.updateProgress f p
  | renderFrame swing now r => exact h.renderFrame swing now r
  | animationFrame swing now =>
    exact Good.foldl_renderFrame swing now s.frames _ (h.of_eq rfl rfl)

theorem setInteraction_interaction (g : Gestures) (new : Interaction) (e : TouchEvent) :
    (g.setInteraction new e).interaction = new := rfl

theorem setInteraction_same (g : Gestures) (e : TouchEvent) :
    g.setInteraction g.interaction e = g := by
  unfold Gestures.setInteraction
  simp

theorem setInteraction_zoomFactor (g : Gestures) (new : Interaction) (e : TouchEvent) :
    (g.setInteraction new e).target.zoomFactor = g.target.zoomFactor := by
  unfold Gestures.setInteraction
  rcases g with ⟨i, f, l, st, fm, t, cs⟩
  cases i <;> cases new <;>
    simp [ImageZoom.handleZoomEnd, ImageZoom.handleDragEnd, end_zoomFactor,
      ImageZoom.handleDragStart, handleDrag_zoomFactor, ImageZoom.handleZoomStart,
      ImageZoom.stopAnimation]

theorem setInteraction_fingers (g : Gestures) (new : Interaction) (e : TouchEvent) :
    (g.setInteraction new e).fingers = g.fingers := by
  rcases g with ⟨i, f, l, st, fm, t, cs⟩
  cases i <;> cases new <;> rfl

theorem setInteraction_lastTouchStart (g : Gestures) (new : Interaction) (e : TouchEvent) :
    (g.setInteraction new e).lastTouchStart = g.lastTouchStart := by
  rcases g with ⟨i, f, l, st, fm, t, cs⟩
  cases i <;> cases new <;> rfl

theorem updateInteraction_fingers (g : Gestures) (e : TouchEvent) :
    (g.updateInteraction e).fingers = g.fingers := by
  unfold Gestures.updateInteraction
  split_ifs <;> exact setInteraction_fingers _ _ _

theorem updateInteraction_lastTouchStart (g : Gestures) (e : TouchEvent) :
    (g.updateInteraction e).lastTouchStart = g.lastTouchStart := by
  unfold Gestures.updateInteraction
  split_ifs <;> exact setInteraction_lastTouchStart _ _ _

theorem updateInteraction_zoomFactor (g : Gestures) (e : TouchEvent) :
    (g.updateInteraction e).target.zoomFactor = g.target.zoomFactor := by
  unfold Gestures.updateInteraction
  split_ifs <;> exact setInteraction_zoomFactor _ _ _

theorem updateInteraction_interaction (g : Gestures) (e : TouchEvent) :
    (g.updateInteraction e).interaction = entryRule g.fingers g.target.canDrag := by
  unfold Gestures.updateInteraction entryRule
  split_ifs <;> rfl

theorem canDrag_congr {s t : ImageZoom} (h : s.zoomFactor = t.zoomFactor) :
    s.canDrag = t.canDrag := by
  unfold ImageZoom.canDrag
  rw [h]

/-- C6: for every call of `setInteraction`, a change None → Zoom fires
exactly `handleZoomStart`, None → Drag exactly `handleDragStart`, Zoom → None
exactly `handleZoomEnd`, Drag → None exactly `handleDragEnd`; a call with the
new mode equal to the current one fires nothing (the whole state is
unchanged); and the mode afterwards is always the requested one. -/
theorem setInteraction_none_transitions (g : Gestures) (e : TouchEvent) :
    (({ g with interaction := .null } : Gestures).setInteraction .zoom e).calls
        = g.calls ++ [.handleZoomStart]
    ∧ (({ g with interaction := .null } : Gestures).setInteraction .drag e).calls
        = g.calls ++ [.handleDragStart]
    ∧ (({ g with interaction := .zoom } : Gestures).setInteraction .null e).calls
        = g.calls ++ [.handleZoomEnd]
    ∧ (({ g with interaction := .drag } : Gestures).setInteraction .null e).calls
        = g.calls ++ [.handleDragEnd]
    ∧ (g.setInteraction g.interaction e).calls = g.calls
    ∧ ∀ new : Interaction, (g.setInteraction new e).interaction = new := by
  refine ⟨rfl, rfl, rfl, rfl, ?_, fun new => rfl⟩
  rw [setInteraction_same]

/-- C4, as the code behaves: a mode switch between Zoom and Drag fires only the
`Start` callback of the new mode: Zoom → Drag fires exactly `handleDragStart`
and Drag → Zoom exactly `handleZoomStart`, with no `End` callback; in general
`setInteraction` fires an `End` callback only when the new mode is None. -/
theorem setInteraction_switch_fires_start_only (g : Gestures) (e : TouchEvent) :
    (({ g with interaction := .zoom } : Gestures).setInteraction .drag e).calls
        = g.calls ++ [.handleDragStart]
    ∧ (({ g with interaction := .drag } : Gestures).setInteraction .zoom e).calls
        = g.calls ++ [.handleZoomStart]
    ∧ ∀ new : Interaction, new ≠ .null →
        ∀ c ∈ ((g.setInteraction new e).calls.drop g.calls.length),
          c ≠ .handleZoomEnd ∧ c ≠ .handleDragEnd := by
  refine ⟨rfl, rfl, ?_⟩
  intro new hnew c hc
  rcases g with ⟨i, f, l, st, fm, t, cs⟩
  cases i <;> cases new <;> simp [Gestures.setInteraction] at hc hnew ⊢ <;> simp [hc]

/-- C4 fails as stated: in the middle of a pinch (mode Zoom, zoom factor 2, so
`canDrag()` holds) a touch-end that leaves one finger down switches the mode to
Drag and fires `handleDragStart` alone; `handleZoomEnd` is not fired. -/
theorem zoom_to_drag_fires_no_end :
    pinching.interaction = .zoom
    ∧ pinching.target.canDrag = true
    ∧ (pinching.touchend ⟨[⟨10, 10⟩], 1020⟩).interaction = .drag
    ∧ (pinching.touchend ⟨[⟨10, 10⟩], 1020⟩).calls = pinching.calls ++ [.handleDragStart]
    ∧ (pinching.setInteraction .drag ⟨[⟨10, 10⟩], 1020⟩).calls
        ≠ pinching.calls ++ [.handleZoomEnd, .handleDragStart] := by
  decide!

/-- C5, as the code behaves: after every processed touch-end, and after the
first processed touch-move that follows a touch-start, the mode is Zoom if the
recogniser's finger count is 2, Drag if it is 1 and `canDrag()` is true, and
None otherwise (`canDrag()` has the same value before and after the event).
A touch-start itself leaves the mode as it was. -/
theorem entry_rule_on_end_and_first_move (g : Gestures) (sqrt : ℚ → ℚ) (e : TouchEvent)
    (hen : g.target.enabled = true) :
    (g.touchend e).interaction = entryRule e.touches.length (g.touchend e).target.canDrag
    ∧ (g.touchend e).fingers = e.touches.length
    ∧ (g.touchend e).target.canDrag = g.target.canDrag
    ∧ (g.firstMove = true →
        (g.touchmove sqrt e).interaction = entryRule g.fingers (g.touchmove sqrt e).target.canDrag
        ∧ (g.touchmove sqrt e).fingers = g.fingers
        ∧ (g.touchmove sqrt e).target.canDrag = g.target.canDrag)
    ∧ (g.touchstart e).interaction = g.interaction := by
  have hend : (g.touchend e).target.zoomFactor = g.target.zoomFactor := by
    unfold Gestures.touchend
    rw [if_pos hen]
    exact updateInteraction_zoomFactor _ _
  have hendc := canDrag_congr hend
  refine ⟨?_, ?_, hendc, ?_, ?_⟩
  · rw [hendc]
    unfold Gestures.touchend
    rw [if_pos hen]
    exact updateInteraction_interaction _ _
  · unfold Gestures.touchend
    rw [if_pos hen]
    exact updateInteraction_fingers _ _
  · intro hfm
    have hmove : (g.touchmove sqrt e).target.zoomFactor = g.target.zoomFactor := by
      unfold Gestures.touchmove
      rw [if_pos hen]
      simp only [hfm, if_true]
      split_ifs
      · exact updateInteraction_zoomFactor _ _
      · exact updateInteraction_zoomFactor _ _
    have hmovec := canDrag_congr hmove
    refine ⟨?_, ?_, hmovec⟩
    · rw [hmovec]
      unfold Gestures.touchmove
      rw [if_pos hen]
      simp only [hfm, if_true]
      split_ifs
      · exact updateInteraction_interaction _ _
      · exact updateInteraction_interaction _ _
    · unfold Gestures.touchmove
      rw [if_pos hen]
      simp only [hfm, if_true]
      split_ifs
      · exact updateInteraction_fingers _ _
      · exact updateInteraction_fingers _ _
  · unfold Gestures.touchstart
    rw [if_pos hen]
    unfold Gestures.detectDoubleTap
    simp only
    split_ifs <;> first | rfl | (cases g.interaction <;> rfl)

/-- C5 fails as stated: a touch-start with two fingers on a fresh recogniser
is processed (the finger count becomes 2) and the mode stays None, where the
entry rule prescribes Zoom. -/
theorem touchstart_skips_entry_rule :
    (detectGestures (construct defaults 300 200 0 0)).target.enabled = true
    ∧ ((detectGestures (construct defaults 300 200 0 0)).touchstart
        ⟨[⟨10, 10⟩, ⟨110, 10⟩], 1000⟩).fingers = 2
    ∧ ((detectGestures (construct defaults 300 200 0 0)).touchstart
        ⟨[⟨10, 10⟩, ⟨110, 10⟩], 1000⟩).interaction = .null
    ∧ ((detectGestures (construct defaults 300 200 0 0)).touchstart
        ⟨[⟨10, 10⟩, ⟨110, 10⟩], 1000⟩).interaction
      ≠ entryRule 2 ((detectGestures (construct defaults 300 200 0 0)).touchstart
        ⟨[⟨10, 10⟩, ⟨110, 10⟩], 1000⟩).target.canDrag := by
  decide!

/-- C5 (amended) at a touch-end that leaves one finger of a pinch down at zoom
factor 2, and at the first move of a two-finger gesture. -/
theorem entry_rule_on_end_and_first_move_witness :
    (pinching.touchend ⟨[⟨10, 10⟩], 1020⟩).interaction = .drag
    ∧ ((pinching.touchstart ⟨[⟨10, 10⟩, ⟨110, 10⟩], 2000⟩).touchmove (fun _ => 0)
        ⟨[⟨12, 10⟩, ⟨110, 10⟩], 2010⟩).interaction = .zoom := by
  have h1 := (entry_rule_on_end_and_first_move pinching (fun _ => 0) ⟨[⟨10, 10⟩], 1020⟩
    (by decide!)).1
  have h2 := (entry_rule_on_end_and_first_move
    (pinching.touchstart ⟨[⟨10, 10⟩, ⟨110, 10⟩], 2000⟩) (fun _ => 0)
    ⟨[⟨12, 10⟩, ⟨110, 10⟩], 2010⟩ (by decide!)).2.2.2.1 (by decide!)
  refine ⟨h1.trans (by decide!), h2.1.trans (by decide!)⟩

/-! ### Double-tap force-close -/

theorem detectDoubleTap_calls_of_detected (g : Gestures) (e : TouchEvent)
    (hdet : doubleTapDetected g e) :
    (g.detectDoubleTap e).calls
      = g.calls ++ [.stopPropagation, .preventDefault, .handleDoubleTap]
          ++ endCallback g.interaction := by
  unfold doubleTapDetected at hdet
  rcases g with ⟨i, f, l, st, fm, t, cs⟩
  unfold Gestures.detectDoubleTap
  by_cases hf : f > 1
  · simp only [hf, if_true] at hdet ⊢
    simp only [hdet, if_true]
    cases i <;> simp [Gestures.cancelEvent, endCallback] <;> split_ifs <;> simp
  · simp only [hf, if_false] at hdet ⊢
    simp only [hdet, if_true]
    cases i <;> simp [Gestures.cancelEvent, endCallback] <;> split_ifs <;> simp

theorem detectDoubleTap_calls_of_not_detected (g : Gestures) (e : TouchEvent)
    (hdet : ¬ doubleTapDetected g e) :
    (g.detectDoubleTap e).calls = g.calls := by
  unfold doubleTapDetected at hdet
  rcases g with ⟨i, f, l, st, fm, t, cs⟩
  unfold Gestures.detectDoubleTap
  by_cases hf : f > 1
  · simp only [hf, if_true] at hdet ⊢
    simp only [hdet, if_false]
    split_ifs <;> rfl
  · simp only [hf, if_false] at hdet ⊢
    simp only [hdet, if_false]
    split_ifs <;> rfl

/-- C8: whenever `detectDoubleTap` detects a double tap it calls
`stopPropagation` and `preventDefault` on the event, then `handleDoubleTap`, then
the `End` callback of the mode that is active (`handleZoomEnd` for Zoom,
`handleDragEnd` for Drag, nothing for None), and nothing else; a processed
touch-start that detects one makes exactly these calls, with no touch-end. -/
theorem double_tap_force_close (g : Gestures) (e : TouchEvent) :
    (doubleTapDetected g e →
      (g.detectDoubleTap e).calls
        = g.calls ++ [.stopPropagation, .preventDefault, .handleDoubleTap]
            ++ endCallback g.interaction)
    ∧ (g.target.enabled = true →
       doubleTapDetected ({ g with firstMove := true, fingers := e.touches.length }) e →
      (g.touchstart e).calls
        = g.calls ++ [.stopPropagation, .preventDefault, .handleDoubleTap]
            ++ endCallback g.interaction) := by
  refine ⟨detectDoubleTap_calls_of_detected g e, ?_⟩
  intro hen hdet
  unfold Gestures.touchstart
  rw [if_pos hen]
  exact detectDoubleTap_calls_of_detected _ e hdet

/-- C8 on a running drag: a second one-finger touch-start 100 ms after the
first cancels the event, calls `handleDoubleTap` and closes the drag. -/
theorem double_tap_force_close_witness :
    dragging.interaction = .drag
    ∧ (dragging.touchstart ⟨[⟨10, 10⟩], 1100⟩).calls
        = dragging.calls
            ++ [.stopPropagation, .preventDefault, .handleDoubleTap, .handleDragEnd] :=
  ⟨by decide!,
   ((double_tap_force_close dragging ⟨[⟨10, 10⟩], 1100⟩).2 (by decide!) (by decide!)).trans
     (by decide!)⟩

/-! ### The first move of a gesture -/

theorem handleDrag_offset_of_none (s : ImageZoom) (e : TouchEvent)
    (h : s.lastDragPosition = none) :
    (s.handleDrag e).offset
      = if s.zoomFactor > 1 then s.sanitizeOffset s.offset else s.offset := by
  unfold ImageZoom.handleDrag
  split_ifs
  · split
    · rw [h]; rfl
    · rfl
  · rfl

theorem handleDragStart_offset (s : ImageZoom) (e : TouchEvent) :
    (s.handleDragStart e).offset
      = if s.zoomFactor > 1 then s.sanitizeOffset s.offset else s.offset := by
  unfold ImageZoom.handleDragStart
  rw [handleDrag_offset_of_none _ e rfl]
  rfl

theorem updateInteraction_offset (g : Gestures) (e : TouchEvent) :
    (g.updateInteraction e).target.offset
      = if g.interaction ≠ .drag ∧ g.fingers = 1 ∧ g.target.canDrag = true
            ∧ g.target.zoomFactor > 1
        then g.target.sanitizeOffset g.target.offset else g.target.offset := by
  rcases g with ⟨i, f, l, st, fm, t, cs⟩
  unfold Gestures.updateInteraction
  by_cases h2 : f = 2
  · subst h2
    cases i <;> simp [Gestures.setInteraction, ImageZoom.handleZoomStart,
      ImageZoom.stopAnimation]
  · by_cases h1 : f = 1 ∧ t.canDrag = true
    · simp only [h2, h1, if_false, and_self, if_true]
      cases i <;>
        simp [Gestures.setInteraction, handleDragStart_offset, h1.1, h1.2]
    · simp only [h2, h1, if_false]
      have hn : ¬ (i ≠ .drag ∧ f = 1 ∧ t.canDrag = true ∧ t.zoomFactor > 1) :=
        fun h => h1 ⟨h.2.1, h.2.2.1⟩
      rw [if_neg hn]
      cases i <;>
        simp [Gestures.setInteraction, ImageZoom.handleZoomEnd, ImageZoom.handleDragEnd,
          end_offset]

/-- C9, as the code behaves: the first processed touch-move after a
touch-start sets the mode by the entry rule, records the touch positions as
start positions and applies no touch delta.  The zoom factor is unchanged.  The
offset is unchanged, except when this move enters Drag (mode not already Drag,
one finger, `canDrag()` true) at a zoom factor above 1: there
`handleDragStart` replaces it by `sanitizeOffset(offset)`.  So the transform
state is unchanged whenever the offset is already within the sanitised
bounds. -/
theorem first_move_applies_no_delta (g : Gestures) (sqrt : ℚ → ℚ) (e : TouchEvent)
    (hen : g.target.enabled = true) (hfm : g.firstMove = true) :
    (g.touchmove sqrt e).target.zoomFactor = g.target.zoomFactor
    ∧ (g.touchmove sqrt e).target.offset
        = (if g.interaction ≠ .drag ∧ g.fingers = 1 ∧ g.target.canDrag = true
              ∧ g.target.zoomFactor > 1
           then g.target.sanitizeOffset g.target.offset else g.target.offset)
    ∧ (g.target.isInsaneOffset g.target.offset = false →
        (g.touchmove sqrt e).target.offset = g.target.offset)
    ∧ (g.touchmove sqrt e).interaction = entryRule g.fingers g.target.canDrag
    ∧ (g.touchmove sqrt e).startTouches = Gestures.targetTouches e
    ∧ (g.touchmove sqrt e).firstMove = false := by
  have key : (g.touchmove sqrt e).target = (g.updateInteraction e).target := by
    unfold Gestures.touchmove
    rw [if_pos hen]
    simp only [hfm, if_true]
    split_ifs <;> rfl
  have hz : (g.touchmove sqrt e).target.zoomFactor = g.target.zoomFactor := by
    rw [key]
    exact updateInteraction_zoomFactor _ _
  have ho : (g.touchmove sqrt e).target.offset
        = (if g.interaction ≠ .drag ∧ g.fingers = 1 ∧ g.target.canDrag = true
              ∧ g.target.zoomFactor > 1
           then g.target.sanitizeOffset g.target.offset else g.target.offset) := by
    rw [key]
    exact updateInteraction_offset g e
  refine ⟨hz, ho, ?_, ?_, ?_, ?_⟩
  · intro hsane
    rw [ho]
    split_ifs
    · unfold ImageZoom.isInsaneOffset at hsane
      simp only [decide_eq_false_iff_not, not_or, not_not] at hsane
      cases hp : g.target.offset with
      | mk x y =>
        rw [hp] at hsane
        have hx := hsane.1
        have hy := hsane.2
        simp only at hx hy
        rw [Point.mk.injEq]
        exact ⟨hx, hy⟩
    · rfl
  · unfold Gestures.touchmove
    rw [if_pos hen]
    simp only [hfm, if_true]
    split_ifs
    · exact updateInteraction_interaction _ _
    · exact updateInteraction_interaction _ _
  · unfold Gestures.touchmove
    rw [if_pos hen]
    simp only [hfm, if_true]
  · unfold Gestures.touchmove
    rw [if_pos hen]

/-- C9 fails as stated: with the object zoomed to factor 2 and its offset at
`{-10, 0}`, a one-finger touch-start followed by its first touch-move enters
Drag and moves the offset to `{0, 0}`. -/
theorem first_move_changes_offset :
    (zoomedOffBounds.touchstart ⟨[⟨50, 50⟩], 1000⟩).target.offset = ⟨-10, 0⟩
    ∧ (zoomedOffBounds.touchstart ⟨[⟨50, 50⟩], 1000⟩).target.enabled = true
    ∧ (zoomedOffBounds.touchstart ⟨[⟨50, 50⟩], 1000⟩).firstMove = true
    ∧ ((zoomedOffBounds.touchstart ⟨[⟨50, 50⟩], 1000⟩).touchmove (fun _ => 0)
        ⟨[⟨50, 50⟩], 1010⟩).target.offset = ⟨0, 0⟩
    ∧ ((zoomedOffBounds.touchstart ⟨[⟨50, 50⟩], 1000⟩).touchmove (fun _ => 0)
        ⟨[⟨50, 50⟩], 1010⟩).target.offset
      ≠ (zoomedOffBounds.touchstart ⟨[⟨50, 50⟩], 1000⟩).target.offset := by
  decide!

/-- C9 (amended) on the first move of a pinch at zoom factor 2: zoom factor and
offset are unchanged and the mode becomes Zoom. -/
theorem first_move_applies_no_delta_witness :
    ((pinching.touchstart ⟨[⟨10, 10⟩, ⟨110, 10⟩], 2000⟩).touchmove (fun _ => 0)
        ⟨[⟨12, 10⟩, ⟨110, 10⟩], 2010⟩).target.zoomFactor = 2
    ∧ ((pinching.touchstart ⟨[⟨10, 10⟩, ⟨110, 10⟩], 2000⟩).touchmove (fun _ => 0)
        ⟨[⟨12, 10⟩, ⟨110, 10⟩], 2010⟩).target.offset = ⟨0, 0⟩ := by
  have h := first_move_applies_no_delta
    (pinching.touchstart ⟨[⟨10, 10⟩, ⟨110, 10⟩], 2000⟩) (fun _ => 0)
    ⟨[⟨12, 10⟩, ⟨110, 10⟩], 2010⟩ (by decide!) (by decide!)
  exact ⟨h.1.trans (by decide!), h.2.1.trans (by decide!)⟩

/-! ### The double-tap window -/

theorem drag_enabled (s : ImageZoom) (c : Point) (l : Option Point) :
    (s.drag c l).enabled = s.enabled := by
  unfold ImageZoom.drag
  cases l with
  | none => rfl
  | some l => simp only; split_ifs <;> rfl

theorem handleDrag_enabled (s : ImageZoom) (e : TouchEvent) :
    (s.handleDrag e).enabled = s.enabled := by
  unfold ImageZoom.handleDrag
  split_ifs
  · split
    · exact drag_enabled s _ _
    · rfl
  · rfl

theorem end_enabled (s : ImageZoom) (now : Int) : (s.end now).enabled = s.enabled := by
  unfold ImageZoom.end ImageZoom.sanitize
  split_ifs <;> rfl

theorem handleDoubleTap_enabled (s : ImageZoom) (e : TouchEvent) :
    (s.handleDoubleTap e).enabled = s.enabled := by
  unfold ImageZoom.handleDoubleTap
  simp only
  split_ifs <;> rfl

theorem handleZoom_enabled (s : ImageZoom) (e : TouchEvent) (n : ℚ) :
    (s.handleZoom e n).enabled = s.enabled := by
  unfold ImageZoom.handleZoom
  simp only
  split_ifs
  · exact drag_enabled _ _ _
  · rfl

theorem setInteraction_enabled (g : Gestures) (new : Interaction) (e : TouchEvent) :
    (g.setInteraction new e).target.enabled = g.target.enabled := by
  unfold Gestures.setInteraction
  rcases g with ⟨i, f, l, st, fm, t, cs⟩
  cases i <;> cases new <;>
    simp [ImageZoom.handleZoomEnd, ImageZoom.handleDragEnd, end_enabled,
      ImageZoom.handleDragStart, handleDrag_enabled, ImageZoom.handleZoomStart,
      ImageZoom.stopAnimation]

theorem updateInteraction_enabled (g : Gestures) (e : TouchEvent) :
    (g.updateInteraction e).target.enabled = g.target.enabled := by
  unfold Gestures.updateInteraction
  split_ifs <;> exact setInteraction_enabled _ _ _

theorem detectDoubleTap_lastTouchStart (g : Gestures) (e : TouchEvent) :
    (g.detectDoubleTap e).lastTouchStart
      = if g.fingers = 1 then some e.time
        else if g.fingers > 1 then none else g.lastTouchStart := by
  rcases g with ⟨i, f, l, st, fm, t, cs⟩
  unfold Gestures.detectDoubleTap
  by_cases hf : f > 1
  · have h1 : f ≠ 1 := by omega
    simp only [hf, if_true, h1, if_false]
    split_ifs <;> cases i <;> simp_all [Gestures.cancelEvent]
  · simp only [hf, if_false]
    by_cases h1 : f = 1
    · subst h1
      split_ifs <;> cases i <;> simp_all [Gestures.cancelEvent]
    · simp only [h1, if_false]
      split_ifs <;> cases i <;> simp_all [Gestures.cancelEvent]

theorem detectDoubleTap_enabled (g : Gestures) (e : TouchEvent) :
    (g.detectDoubleTap e).target.enabled = g.target.enabled := by
  rcases g with ⟨i, f, l, st, fm, t, cs⟩
  unfold Gestures.detectDoubleTap
  simp only
  split_ifs <;> cases i <;>
    simp [Gestures.cancelEvent, ImageZoom.handleZoomEnd, ImageZoom.handleDragEnd,
      end_enabled, handleDoubleTap_enabled]

theorem dispatch_enabled (g : Gestures) (sqrt : ℚ → ℚ) (ev : Event) :
    (g.dispatch sqrt ev).target.enabled = g.target.enabled := by
  cases ev with
  | touchstart e =>
    show (g.touchstart e).target.enabled = g.target.enabled
    unfold Gestures.touchstart
    split_ifs
    · exact detectDoubleTap_enabled _ _
    · rfl
  | touchmove e =>
    show (g.touchmove sqrt e).target.enabled = g.target.enabled
    unfold Gestures.touchmove
    rcases g with ⟨i, f, l, st, fm, t, cs⟩
    simp only
    split_ifs <;> first
      | rfl
      | exact updateInteraction_enabled _ _
      | (cases i <;> simp_all [Gestures.cancelEvent, handleZoom_enabled, handleDrag_enabled])
  | touchend e =>
    show (g.touchend e).target.enabled = g.target.enabled
    unfold Gestures.touchend
    split_ifs
    · exact updateInteraction_enabled _ _
    · rfl

theorem touchmove_lastTouchStart (g : Gestures) (sqrt : ℚ → ℚ) (e : TouchEvent) :
    (g.touchmove sqrt e).lastTouchStart = g.lastTouchStart := by
  unfold Gestures.touchmove
  rcases g with ⟨i, f, l, st, fm, t, cs⟩
  simp only
  split_ifs <;> first
    | rfl
    | exact updateInteraction_lastTouchStart _ _
    | (cases i <;> simp_all [Gestures.cancelEvent])

theorem touchend_lastTouchStart (g : Gestures) (e : TouchEvent) :
    (g.touchend e).lastTouchStart = g.lastTouchStart := by
  unfold Gestures.touchend
  split_ifs
  · exact updateInteraction_lastTouchStart _ _
  · rfl

theorem touchStarts_append (es fs : List Event) :
    touchStarts (es ++ fs) = touchStarts es ++ touchStarts fs := by
  induction es with
  | nil => rfl
  | cons ev es ih => cases ev <;> simp [touchStarts, ih]

theorem dispatchAll_append (g : Gestures) (sqrt : ℚ → ℚ) (es : List Event) (ev : Event) :
    g.dispatchAll sqrt (es ++ [ev]) = (g.dispatchAll sqrt es).dispatch sqrt ev := by
  unfold Gestures.dispatchAll
  rw [List.foldl_append]
  rfl

theorem dispatchAll_enabled (g : Gestures) (sqrt : ℚ → ℚ) (es : List Event) :
    (g.dispatchAll sqrt es).target.enabled = g.target.enabled := by
  induction es using List.reverseRecOn with
  | nil => rfl
  | append_singleton es ev ih => rw [dispatchAll_append, dispatch_enabled, ih]

theorem touchstart_lastTouchStart (g : Gestures) (e : TouchEvent)
    (hen : g.target.enabled = true) (hlen : 1 ≤ e.touches.length) :
    (g.touchstart e).lastTouchStart = pendingTap (some e) := by
  unfold Gestures.touchstart
  rw [if_pos hen, detectDoubleTap_lastTouchStart]
  unfold pendingTap
  simp only
  by_cases h1 : e.touches.length = 1
  · simp [h1]
  · have : e.touches.length > 1 := by omega
    simp [h1, this]

theorem dispatchAll_lastTouchStart (target : ImageZoom) (sqrt : ℚ → ℚ) (es : List Event)
    (hen : target.enabled = true)
    (hwf : ∀ e ∈ touchStarts es, 1 ≤ e.touches.length) :
    ((detectGestures target).dispatchAll sqrt es).lastTouchStart
      = pendingTap (touchStarts es).getLast? := by
  induction es using List.reverseRecOn with
  | nil => rfl
  | append_singleton es ev ih =>
    have hwf' : ∀ e ∈ touchStarts es, 1 ≤ e.touches.length := by
      intro e he
      apply hwf
      rw [touchStarts_append]
      exact List.mem_append_left _ he
    have ih' := ih hwf'
    rw [dispatchAll_append, touchStarts_append]
    cases ev with
    | touchstart e =>
      have hlen : 1 ≤ e.touches.length := by
        apply hwf
        rw [touchStarts_append]
        exact List.mem_append_right _ (by simp [touchStarts])
      have hen' : ((detectGestures target).dispatchAll sqrt es).target.enabled = true := by
        rw [dispatchAll_enabled]; exact hen
      show (Gestures.touchstart _ e).lastTouchStart = _
      rw [touchstart_lastTouchStart _ e hen' hlen]
      simp [touchStarts]
    | touchmove e =>
      show (Gestures.touchmove _ sqrt e).lastTouchStart = _
      rw [touchmove_lastTouchStart, ih']
      simp [touchStarts]
    | touchend e =>
      show (Gestures.touchend _ e).lastTouchStart = _
      rw [touchend_lastTouchStart, ih']
      simp [touchStarts]

theorem pendingTap_wf (prev : Option TouchEvent) (e : TouchEvent)
    (hlen : 1 ≤ e.touches.length) (ht : 300 ≤ e.time) :
    e.time - ((if e.touches.length > 1 then none else pendingTap prev).getD 0) < 300
      ↔ isDoubleTap prev e = true := by
  by_cases h1 : e.touches.length > 1
  · have hne : e.touches.length ≠ 1 := by omega
    simp only [h1, if_true, Option.getD_none, sub_zero]
    cases prev with
    | none => simp [isDoubleTap]; omega
    | some e0 => simp [isDoubleTap, hne]; omega
  · have he : e.touches.length = 1 := by omega
    simp only [h1, if_false]
    cases prev with
    | none => simp [isDoubleTap, pendingTap]; omega
    | some e0 =>
      by_cases h0 : e0.touches.length = 1
      · simp [isDoubleTap, pendingTap, h0, he]
      · simp [isDoubleTap, pendingTap, h0]; omega

/-- C7: for every sequence of processed events on a fresh recogniser whose
touch-starts carry at least one touch (as every touch-start does) and clock
readings of at least 300, a further touch-start at time `t` fires
`handleDoubleTap` exactly once if it has one finger and the touch-start right
before it had one finger and happened at `t0` with `t - t0 < 300`, and does not
fire it otherwise; a touch-start with more than one finger leaves no pending
timestamp. -/
theorem double_tap_window (target : ImageZoom) (sqrt : ℚ → ℚ) (es : List Event)
    (e : TouchEvent) (hen : target.enabled = true)
    (hwf : ∀ e' ∈ touchStarts (es ++ [.touchstart e]),
      1 ≤ e'.touches.length ∧ 300 ≤ e'.time) :
    ((((detectGestures target).dispatchAll sqrt es).touchstart e).calls.count
        .handleDoubleTap
      = ((detectGestures target).dispatchAll sqrt es).calls.count .handleDoubleTap
        + (if isDoubleTap (touchStarts es).getLast? e = true then 1 else 0))
    ∧ (1 < e.touches.length →
        (((detectGestures target).dispatchAll sqrt es).touchstart e).lastTouchStart
          = none) := by
  have hwf' : ∀ e' ∈ touchStarts es, 1 ≤ e'.touches.length := by
    intro e' he'
    refine (hwf e' ?_).1
    rw [touchStarts_append]
    exact List.mem_append_left _ he'
  have he : 1 ≤ e.touches.length ∧ 300 ≤ e.time := by
    apply hwf
    rw [touchStarts_append]
    exact List.mem_append_right _ (by simp [touchStarts])
  have hen' : ((detectGestures target).dispatchAll sqrt es).target.enabled = true := by
    rw [dispatchAll_enabled]; exact hen
  have hl := dispatchAll_lastTouchStart target sqrt es hen hwf'
  constructor
  · have hiff := pendingTap_wf (touchStarts es).getLast? e he.1 he.2
    generalize (detectGestures target).dispatchAll sqrt es = g at hen' hl ⊢
    unfold Gestures.touchstart
    rw [if_pos hen']
    by_cases hd : isDoubleTap (touchStarts es).getLast? e = true
    · have hdet : doubleTapDetected
          ({ g with firstMove := true, fingers := e.touches.length } : Gestures) e := by
        unfold doubleTapDetected
        simp only [hl]
        exact hiff.mpr hd
      rw [detectDoubleTap_calls_of_detected _ _ hdet, if_pos hd]
      cases hi : g.interaction <;> simp [endCallback, hi, List.count_append]
    · have hdet : ¬ doubleTapDetected
          ({ g with firstMove := true, fingers := e.touches.length } : Gestures) e := by
        unfold doubleTapDetected
        simp only [hl]
        exact fun h => hd (hiff.mp h)
      rw [detectDoubleTap_calls_of_not_detected _ _ hdet, if_neg hd]
      rfl
  · intro h2
    rw [touchstart_lastTouchStart _ e hen' he.1]
    unfold pendingTap
    have : e.touches.length ≠ 1 := by omega
    simp [this]

/-- C7, the specification's two cases: after a one-finger touch-start at time
1000 and its touch-end, a one-finger touch-start at 1299 (299 ms later) fires
exactly one `handleDoubleTap`, and one at 1301 (301 ms later) fires none. -/
theorem double_tap_window_witness :
    ((((detectGestures (construct defaults 300 200 0 0)).dispatchAll (fun _ => 0)
          [.touchstart ⟨[⟨10, 10⟩], 1000⟩, .touchend ⟨[], 1050⟩]).touchstart
        ⟨[⟨10, 10⟩], 1299⟩).calls.count .handleDoubleTap = 1)
    ∧ ((((detectGestures (construct defaults 300 200 0 0)).dispatchAll (fun _ => 0)
          [.touchstart ⟨[⟨10, 10⟩], 1000⟩, .touchend ⟨[], 1050⟩]).touchstart
        ⟨[⟨10, 10⟩], 1301⟩).calls.count .handleDoubleTap = 0) :=
  ⟨(double_tap_window (construct defaults 300 200 0 0) (fun _ => 0)
      [.touchstart ⟨[⟨10, 10⟩], 1000⟩, .touchend ⟨[], 1050⟩] ⟨[⟨10, 10⟩], 1299⟩
      (by decide!) (by decide!)).1.trans (by decide!),
   (double_tap_window (construct defaults 300 200 0 0) (fun _ => 0)
      [.touchstart ⟨[⟨10, 10⟩], 1000⟩, .touchend ⟨[], 1050⟩] ⟨[⟨10, 10⟩], 1301⟩
      (by decide!) (by decide!)).1.trans (by decide!)⟩

/-! ### The pinch scale -/

theorem drag_scaleCalls (s : ImageZoom) (c : Point) (l : Option Point) :
    (s.drag c l).scaleCalls = s.scaleCalls := by
  unfold ImageZoom.drag
  cases l with
  | none => rfl
  | some l => simp only; split_ifs <;> rfl

theorem drag_lastScale (s : ImageZoom) (c : Point) (l : Option Point) :
    (s.drag c l).lastScale = s.lastScale := by
  unfold ImageZoom.drag
  cases l with
  | none => rfl
  | some l => simp only; split_ifs <;> rfl

theorem drag_nthZoom (s : ImageZoom) (c : Point) (l : Option Point) :
    (s.drag c l).nthZoom = s.nthZoom := by
  unfold ImageZoom.drag
  cases l with
  | none => rfl
  | some l => simp only; split_ifs <;> rfl

theorem handleZoom_lastScale (s : ImageZoom) (e : TouchEvent) (n : ℚ) :
    (s.handleZoom e n).lastScale = n := by
  unfold ImageZoom.handleZoom
  simp only
  split_ifs
  · exact drag_lastScale _ _ _
  · rfl

theorem handleZoom_nthZoom (s : ImageZoom) (e : TouchEvent) (n : ℚ) :
    (s.handleZoom e n).nthZoom = s.nthZoom + 1 := by
  unfold ImageZoom.handleZoom
  simp only
  split_ifs
  · exact drag_nthZoom _ _ _
  · rfl

theorem handleZoom_scaleCalls (s : ImageZoom) (e : TouchEvent) (n : ℚ) :
    (s.handleZoom e n).scaleCalls
      = if 3 ≤ s.nthZoom
        then s.scaleCalls ++ [(n / s.lastScale, ImageZoom.getTouchCenter (s.getTouches e))]
        else s.scaleCalls := by
  unfold ImageZoom.handleZoom
  simp only
  by_cases h : 3 ≤ s.nthZoom
  · have h' : s.nthZoom + 1 > 3 := by omega
    rw [if_pos h', if_pos h]
    exact drag_scaleCalls _ _ _
  · have h' : ¬ s.nthZoom + 1 > 3 := by omega
    rw [if_neg h', if_neg h]

theorem handleZooms_skipped (l : List (TouchEvent × ℚ)) :
    ∀ s : ImageZoom, s.nthZoom + l.length ≤ 3 →
      (s.handleZooms l).scaleCalls = s.scaleCalls
      ∧ (s.handleZooms l).nthZoom = s.nthZoom + l.length
      ∧ (s.handleZooms l).lastScale = (l.map Prod.snd).getLastD s.lastScale := by
  induction l with
  | nil => intro s _; exact ⟨rfl, rfl, rfl⟩
  | cons p l ih =>
    intro s h
    simp only [List.length_cons] at h
    have h1 : (s.handleZoom p.1 p.2).nthZoom + l.length ≤ 3 := by
      rw [handleZoom_nthZoom]; omega
    obtain ⟨a, b, c⟩ := ih (s.handleZoom p.1 p.2) h1
    have hs : ¬ 3 ≤ s.nthZoom := by omega
    refine ⟨?_, ?_, ?_⟩
    · show ((s.handleZoom p.1 p.2).handleZooms l).scaleCalls = _
      rw [a, handleZoom_scaleCalls, if_neg hs]
    · show ((s.handleZoom p.1 p.2).handleZooms l).nthZoom = _
      rw [b, handleZoom_nthZoom, List.length_cons]; omega
    · show ((s.handleZoom p.1 p.2).handleZooms l).lastScale = _
      rw [c, handleZoom_lastScale, List.map_cons, List.getLastD_cons]

theorem handleZooms_forwarded (l : List (TouchEvent × ℚ)) :
    ∀ s : ImageZoom, 3 ≤ s.nthZoom → s.lastScale ≠ 0 → (∀ p ∈ l, p.2 ≠ 0) →
      ∃ fs : List (ℚ × Point), (s.handleZooms l).scaleCalls = s.scaleCalls ++ fs
        ∧ fs.length = l.length
        ∧ (fs.map Prod.fst).prod = (l.map Prod.snd).getLastD s.lastScale / s.lastScale := by
  induction l with
  | nil =>
    intro s _ h0 _
    exact ⟨[], (List.append_nil _).symm, rfl, by simp [div_self h0]⟩
  | cons p l ih =>
    intro s h3 h0 hl
    have hp : p.2 ≠ 0 := hl p (List.mem_cons_self _ _)
    have h1 : 3 ≤ (s.handleZoom p.1 p.2).nthZoom := by rw [handleZoom_nthZoom]; omega
    have h2 : (s.handleZoom p.1 p.2).lastScale ≠ 0 := by rw [handleZoom_lastScale]; exact hp
    obtain ⟨fs, a, b, c⟩ := ih (s.handleZoom p.1 p.2) h1 h2
      (fun q hq => hl q (List.mem_cons_of_mem _ hq))
    refine ⟨(p.2 / s.lastScale, ImageZoom.getTouchCenter (s.getTouches p.1)) :: fs, ?_, ?_, ?_⟩
    · show ((s.handleZoom p.1 p.2).handleZooms l).scaleCalls = _
      rw [a, handleZoom_scaleCalls, if_pos h3, List.append_assoc]
      rfl
    · rw [List.length_cons, List.length_cons, b]
    · rw [List.map_cons, List.prod_cons, c, handleZoom_lastScale, List.map_cons,
        List.getLastD_cons]
      field_simp
      ring

theorem handleZooms_append (s : ImageZoom) (a b : List (TouchEvent × ℚ)) :
    s.handleZooms (a ++ b) = (s.handleZooms a).handleZooms b := by
  unfold ImageZoom.handleZooms
  rw [List.foldl_append]

theorem getLastD_map {α β : Type} (f : α → β) (l : List α) :
    ∀ a : α, (l.map f).getLastD (f a) = f (l.getLastD a) := by
  induction l with
  | nil => intro a; rfl
  | cons b l ih => intro a; rw [List.map_cons, List.getLastD_cons, List.getLastD_cons, ih]

theorem touchmove_zoom (g : Gestures) (sqrt : ℚ → ℚ) (e : TouchEvent)
    (hen : g.target.enabled = true) (hfm : g.firstMove = false)
    (hi : g.interaction = .zoom) :
    (g.touchmove sqrt e).target
        = g.target.handleZoom e
            (Gestures.calculateScale sqrt g.startTouches (Gestures.targetTouches e))
    ∧ (g.touchmove sqrt e).interaction = .zoom
    ∧ (g.touchmove sqrt e).firstMove = false
    ∧ (g.touchmove sqrt e).startTouches = g.startTouches := by
  rcases g with ⟨i, f, l, st, fm, t, cs⟩
  simp only at hen hfm hi
  subst hfm hi
  simp [Gestures.touchmove, hen, Gestures.cancelEvent]

theorem touchmoves_zoom (sqrt : ℚ → ℚ) (ms : List TouchEvent) :
    ∀ g : Gestures, g.target.enabled = true → g.firstMove = false → g.interaction = .zoom →
      (g.touchmoves sqrt ms).target
        = g.target.handleZooms (ms.map (fun e =>
            (e, Gestures.calculateScale sqrt g.startTouches (Gestures.targetTouches e)))) := by
  induction ms with
  | nil => intro g _ _ _; rfl
  | cons m ms ih =>
    intro g hen hfm hi
    obtain ⟨ht, hi', hfm', hst⟩ := touchmove_zoom g sqrt m hen hfm hi
    have hen' : (g.touchmove sqrt m).target.enabled = true := by
      rw [ht, handleZoom_enabled]; exact hen
    have h := ih (g.touchmove sqrt m) hen' hfm' hi'
    show ((g.touchmove sqrt m).touchmoves sqrt ms).target = _
    rw [h, hst, ht]
    rfl

theorem first_move_enters_zoom (g : Gestures) (sqrt : ℚ → ℚ) (e : TouchEvent)
    (hen : g.target.enabled = true) (hfm : g.firstMove = true) (hf : g.fingers = 2)
    (hi : g.interaction ≠ .zoom) :
    (g.touchmove sqrt e).target = g.target.handleZoomStart
    ∧ (g.touchmove sqrt e).interaction = .zoom
    ∧ (g.touchmove sqrt e).firstMove = false
    ∧ (g.touchmove sqrt e).startTouches = Gestures.targetTouches e := by
  rcases g with ⟨i, f, l, st, fm, t, cs⟩
  simp only at hen hfm hf hi
  subst hfm hf
  cases i <;>
    simp_all [Gestures.touchmove, Gestures.updateInteraction, Gestures.setInteraction,
      Gestures.cancelEvent]

theorem calculateScale_eq (sqrt : ℚ → ℚ) (first e : TouchEvent) :
    Gestures.calculateScale sqrt (Gestures.targetTouches first) (Gestures.targetTouches e)
      = fingerDistance sqrt e / fingerDistance sqrt first := rfl

/-- C10, as the code behaves: in a two-finger gesture whose first move enters
Zoom and records a start distance `d0 > 0`, followed by moves with positive
finger distances, `handleZoom` discards the relative factors of the first three
of these moves.  With at most three moves nothing is forwarded to `scale`; with
moves `m1, m2, m3` and then `rest`, one factor per move of `rest` is forwarded
and the forwarded factors multiply to `d / d3`, where `d` is the last finger
distance and `d3` the finger distance at `m3`. -/
theorem pinch_forwards_scale_after_three_moves (g : Gestures) (sqrt : ℚ → ℚ)
    (first : TouchEvent) (ms : List TouchEvent)
    (hen : g.target.enabled = true) (hfm : g.firstMove = true) (hf : g.fingers = 2)
    (hi : g.interaction ≠ .zoom)
    (hd0 : 0 < fingerDistance sqrt first) (hd : ∀ m ∈ ms, 0 < fingerDistance sqrt m) :
    (ms.length ≤ 3 →
      forwardedFactors g.target (((g.touchmove sqrt first).touchmoves sqrt ms).target) = [])
    ∧ (∀ (m1 m2 m3 : TouchEvent) (rest : List TouchEvent), ms = m1 :: m2 :: m3 :: rest →
        (forwardedFactors g.target
            (((g.touchmove sqrt first).touchmoves sqrt ms).target)).length = rest.length
        ∧ (forwardedFactors g.target
            (((g.touchmove sqrt first).touchmoves sqrt ms).target)).prod
          = fingerDistance sqrt (rest.getLastD m3) / fingerDistance sqrt m3) := by
  obtain ⟨ht, hi', hfm', hst⟩ := first_move_enters_zoom g sqrt first hen hfm hf hi
  have hen' : (g.touchmove sqrt first).target.enabled = true := by rw [ht]; exact hen
  have hrun := touchmoves_zoom sqrt ms (g.touchmove sqrt first) hen' hfm' hi'
  rw [hst, ht] at hrun
  simp only [calculateScale_eq] at hrun
  rw [hrun]
  constructor
  · intro hlen
    have hsk := (handleZooms_skipped
      (ms.map (fun e => (e, fingerDistance sqrt e / fingerDistance sqrt first)))
      g.target.handleZoomStart (by
        rw [List.length_map]
        show 0 + ms.length ≤ 3
        omega)).1
    unfold forwardedFactors
    rw [hsk]
    show (List.drop g.target.scaleCalls.length g.target.scaleCalls).map Prod.fst = []
    rw [List.drop_length]
    rfl
  · intro m1 m2 m3 rest hms
    subst hms
    have hd3 : fingerDistance sqrt m3 ≠ 0 := (hd m3 (by simp)).ne'
    have hsk := handleZooms_skipped
      ([m1, m2, m3].map (fun e => (e, fingerDistance sqrt e / fingerDistance sqrt first)))
      g.target.handleZoomStart (by show 0 + 3 ≤ 3; omega)
    obtain ⟨hc3, hn3, hl3⟩ := hsk
    have hsplit : g.target.handleZoomStart.handleZooms
        ((m1 :: m2 :: m3 :: rest).map
          (fun e => (e, fingerDistance sqrt e / fingerDistance sqrt first)))
        = (g.target.handleZoomStart.handleZooms
            ([m1, m2, m3].map
              (fun e => (e, fingerDistance sqrt e / fingerDistance sqrt first)))).handleZooms
          (rest.map (fun e => (e, fingerDistance sqrt e / fingerDistance sqrt first))) := by
      rw [show m1 :: m2 :: m3 :: rest = [m1, m2, m3] ++ rest from rfl, List.map_append,
        handleZooms_append]
    have hl3' : (g.target.handleZoomStart.handleZooms
        ([m1, m2, m3].map
          (fun e => (e, fingerDistance sqrt e / fingerDistance sqrt first)))).lastScale
        = fingerDistance sqrt m3 / fingerDistance sqrt first := hl3
    obtain ⟨fs, hfs, hlen, hprod⟩ := handleZooms_forwarded
      (rest.map (fun e => (e, fingerDistance sqrt e / fingerDistance sqrt first)))
      (g.target.handleZoomStart.handleZooms
        ([m1, m2, m3].map
          (fun e => (e, fingerDistance sqrt e / fingerDistance sqrt first))))
      (by rw [hn3]; show 3 ≤ 0 + 3; omega)
      (by rw [hl3']; exact div_ne_zero hd3 hd0.ne')
      (by
        intro p hp
        rw [List.mem_map] at hp
        obtain ⟨m, hm, rfl⟩ := hp
        exact div_ne_zero (hd m (by simp [hm])).ne' hd0.ne')
    have hcalls : (g.target.handleZoomStart.handleZooms
        ((m1 :: m2 :: m3 :: rest).map
          (fun e => (e, fingerDistance sqrt e / fingerDistance sqrt first)))).scaleCalls
        = g.target.scaleCalls ++ fs := by
      rw [hsplit, hfs, hc3]
      rfl
    have hfw : forwardedFactors g.target (g.target.handleZoomStart.handleZooms
        ((m1 :: m2 :: m3 :: rest).map
          (fun e => (e, fingerDistance sqrt e / fingerDistance sqrt first))))
        = fs.map Prod.fst := by
      unfold forwardedFactors
      rw [hcalls, List.drop_left]
    rw [hfw]
    refine ⟨by rw [List.length_map, hlen, List.length_map], ?_⟩
    rw [hprod, hl3', List.map_map]
    have hmap : (List.map (Prod.snd ∘ fun e =>
          (e, fingerDistance sqrt e / fingerDistance sqrt first)) rest)
        = rest.map (fun e => fingerDistance sqrt e / fingerDistance sqrt first) := rfl
    rw [hmap, getLastD_map (fun e => fingerDistance sqrt e / fingerDistance sqrt first)]
    field_simp

/-- C10 fails as stated: with start distance 100, the specification's
scenario of a move to distance 150 forwards nothing to `scale` (cumulative
factor 1, not 1.5), and the moves 110, 120, 130, 150 forward the single factor
`150 / 130`, not factors that multiply to `150 / 100`. -/
theorem pinch_scale_drops_first_moves :
    pinchStarted.interaction = .zoom
    ∧ pinchStarted.startTouches = [⟨0, 0⟩, ⟨100, 0⟩]
    ∧ fingerDistance sqrtTable (twoFingers 100 1010) = 100
    ∧ fingerDistance sqrtTable (twoFingers 150 1050) = 150
    ∧ forwardedFactors pinchStarted.target
        (pinchStarted.touchmoves sqrtTable [twoFingers 150 1050]).target = []
    ∧ forwardedFactors pinchStarted.target
        (pinchStarted.touchmoves sqrtTable
          [twoFingers 110 1020, twoFingers 120 1030, twoFingers 130 1040,
           twoFingers 150 1050]).target = [15 / 13]
    ∧ (forwardedFactors pinchStarted.target
        (pinchStarted.touchmoves sqrtTable
          [twoFingers 110 1020, twoFingers 120 1030, twoFingers 130 1040,
           twoFingers 150 1050]).target).prod ≠ 150 / 100 := by
  decide!

/-- C10 (amended) on the gesture 100, then 110, 120, 130, 150: the forwarded
factors multiply to `150 / 130`. -/
theorem pinch_forwards_scale_after_three_moves_witness :
    (forwardedFactors
        ((detectGestures (construct defaults 300 200 0 0)).touchstart
          (twoFingers 100 1000)).target
        ((((detectGestures (construct defaults 300 200 0 0)).touchstart
            (twoFingers 100 1000)).touchmove sqrtTable (twoFingers 100 1010)).touchmoves
          sqrtTable
          [twoFingers 110 1020, twoFingers 120 1030, twoFingers 130 1040,
           twoFingers 150 1050]).target).prod = 150 / 130 :=
  ((pinch_forwards_scale_after_three_moves
      ((detectGestures (construct defaults 300 200 0 0)).touchstart (twoFingers 100 1000))
      sqrtTable (twoFingers 100 1010)
      [twoFingers 110 1020, twoFingers 120 1030, twoFingers 130 1040, twoFingers 150 1050]
      (by decide!) (by decide!) (by decide!) (by decide!) (by decide!) (by decide!)).2
    (twoFingers 110 1020) (twoFingers 120 1030) (twoFingers 130 1040) [twoFingers 150 1050]
    rfl).2.trans (by decide!)

/-! ### Sanitising the offset -/

theorem sanitizeOffset_x (s : ImageZoom) (o : Point) :
    (s.sanitizeOffset o).x
      = min (max o.x (min ((s.zoomFactor - 1) * s.containerX) 0))
          (max ((s.zoomFactor - 1) * s.containerX) 0) := rfl

theorem sanitizeOffset_y (s : ImageZoom) (o : Point) :
    (s.sanitizeOffset o).y
      = min (max o.y (min ((s.zoomFactor - 1) * s.containerY) 0))
          (max ((s.zoomFactor - 1) * s.containerY) 0) := rfl

theorem clamp_idem (x m : ℚ) :
    min (max (min (max x (min m 0)) (max m 0)) (min m 0)) (max m 0)
      = min (max x (min m 0)) (max m 0) := by
  have h1 : min m 0 ≤ max m 0 := le_trans (min_le_right _ _) (le_max_right _ _)
  have h2 : min m 0 ≤ min (max x (min m 0)) (max m 0) := le_min (le_max_right _ _) h1
  rw [max_eq_left h2, min_eq_left (min_le_right _ _)]

/-- C11, as the code behaves: for a container with positive width and height
and every offset `o`, `sanitizeOffset(o)` is `{0, 0}` when the zoom factor
equals 1; when the zoom factor is below 1 each axis is clamped into
`[(zoomFactor - 1) * containerSize, 0]`, so offsets in that range are
returned unchanged. -/
theorem sanitizeOffset_not_zoomed_in (s : ImageZoom) (o : Point)
    (hz : s.zoomFactor ≤ 1) (hw : 0 < s.containerX) (hh : 0 < s.containerY) :
    s.sanitizeOffset o
        = ⟨min (max o.x ((s.zoomFactor - 1) * s.containerX)) 0,
           min (max o.y ((s.zoomFactor - 1) * s.containerY)) 0⟩
    ∧ (s.zoomFactor = 1 → s.sanitizeOffset o = ⟨0, 0⟩)
    ∧ ((s.zoomFactor - 1) * s.containerX ≤ o.x → o.x ≤ 0 →
        (s.zoomFactor - 1) * s.containerY ≤ o.y → o.y ≤ 0 → s.sanitizeOffset o = o) := by
  have hx : (s.zoomFactor - 1) * s.containerX ≤ 0 :=
    mul_nonpos_of_nonpos_of_nonneg (by linarith) hw.le
  have hy : (s.zoomFactor - 1) * s.containerY ≤ 0 :=
    mul_nonpos_of_nonpos_of_nonneg (by linarith) hh.le
  have hform : s.sanitizeOffset o
        = ⟨min (max o.x ((s.zoomFactor - 1) * s.containerX)) 0,
           min (max o.y ((s.zoomFactor - 1) * s.containerY)) 0⟩ := by
    rw [Point.mk.injEq]
    constructor
    · show (s.sanitizeOffset o).x = _
      rw [sanitizeOffset_x, min_eq_left hx, max_eq_right hx]
    · show (s.sanitizeOffset o).y = _
      rw [sanitizeOffset_y, min_eq_left hy, max_eq_right hy]
  refine ⟨hform, ?_, ?_⟩
  · intro h1
    rw [hform, h1]
    simp
  · intro a b c d
    rw [hform, max_eq_left a, min_eq_left b, max_eq_left c, min_eq_left d]

/-- C11 fails as stated: at zoom factor `1 / 2` in a 300 by 200 container the
offset `{-100, -50}` lies within `[-150, 0]` and `[-100, 0]` and is returned
unchanged, not collapsed to `{0, 0}`. -/
theorem sanitizeOffset_below_one_keeps_offset :
    zoomedOut.zoomFactor = 1 / 2
    ∧ zoomedOut.containerX = 300 ∧ zoomedOut.containerY = 200
    ∧ zoomedOut.sanitizeOffset ⟨-100, -50⟩ = ⟨-100, -50⟩
    ∧ zoomedOut.sanitizeOffset ⟨-100, -50⟩ ≠ ⟨0, 0⟩
    ∧ zoomedOut.offset = ⟨-100, -50⟩ := by
  decide!

/-- C11 (amended) at zoom factor 1 and at zoom factor `1 / 2`. -/
theorem sanitizeOffset_not_zoomed_in_witness :
    (construct defaults 300 200 0 0).sanitizeOffset ⟨-100, 70⟩ = ⟨0, 0⟩
    ∧ zoomedOut.sanitizeOffset ⟨-400, 70⟩ = ⟨-150, 0⟩ :=
  ⟨(sanitizeOffset_not_zoomed_in (construct defaults 300 200 0 0) ⟨-100, 70⟩
      (by decide!) (by decide!) (by decide!)).2.1 (by decide!),
   (sanitizeOffset_not_zoomed_in zoomedOut ⟨-400, 70⟩
      (by decide!) (by decide!) (by decide!)).1.trans (by decide!)⟩

/-- C12: for every zoom factor, container size and offset `o`,
`sanitizeOffset(sanitizeOffset(o)) = sanitizeOffset(o)`, and `isInsaneOffset`
of a sanitised offset is false. -/
theorem sanitizeOffset_idempotent (s : ImageZoom) (o : Point) :
    s.sanitizeOffset (s.sanitizeOffset o) = s.sanitizeOffset o
    ∧ s.isInsaneOffset (s.sanitizeOffset o) = false := by
  have h : s.sanitizeOffset (s.sanitizeOffset o) = s.sanitizeOffset o := by
    have hx : (s.sanitizeOffset (s.sanitizeOffset o)).x = (s.sanitizeOffset o).x := by
      rw [sanitizeOffset_x, sanitizeOffset_x, clamp_idem]
    have hy : (s.sanitizeOffset (s.sanitizeOffset o)).y = (s.sanitizeOffset o).y := by
      rw [sanitizeOffset_y, sanitizeOffset_y, clamp_idem]
    cases h1 : s.sanitizeOffset (s.sanitizeOffset o) with
    | mk a b =>
      cases h2 : s.sanitizeOffset o with
      | mk c d =>
        rw [h1, h2] at hx hy
        simp only at hx hy
        rw [hx, hy]
  refine ⟨h, ?_⟩
  unfold ImageZoom.isInsaneOffset
  rw [h]
  simp

/-! ### The decision of `sanitize` -/

/-- C13: `sanitize()` starts at most one correction.  If
`zoomFactor < zoomOutFactor` it schedules the zoom-out animation, whose
per-frame update is `scaleTo(start + p * (1 - start), center)` with `start` the
zoom factor and `center = getCurrentZoomCenter()` at the time of the call, so
that its final update `p = 1` is `scaleTo(1, center)`.  Otherwise, if
`sanitizeOffset(offset)` differs from `offset`, it schedules the offset
animation, whose final update sets the offset to `sanitizeOffset` of the
starting offset.  Otherwise it changes nothing.  `sanitize` itself moves
neither the zoom factor nor the offset. -/
theorem sanitize_decision (s : ImageZoom) (now : Int) :
    (s.zoomFactor < s.options.zoomOutFactor →
      (s.sanitize now).frames
          = s.frames ++ [⟨now, s.options.animationDuration,
              .zoomProgress s.zoomFactor 1 s.getCurrentZoomCenter⟩]
      ∧ (s.sanitize now).inAnimation = true)
    ∧ (¬ s.zoomFactor < s.options.zoomOutFactor → s.sanitizeOffset s.offset ≠ s.offset →
      (s.sanitize now).frames
          = s.frames ++ [⟨now, s.options.animationDuration,
              .offsetProgress s.offset (s.sanitizeOffset s.offset)⟩]
      ∧ (s.sanitize now).inAnimation = true)
    ∧ (¬ s.zoomFactor < s.options.zoomOutFactor → s.sanitizeOffset s.offset = s.offset →
      s.sanitize now = s)
    ∧ (∀ (u : ImageZoom) (start p : ℚ) (c : Point),
        u.updateProgress (.zoomProgress start 1 c) p = u.scaleTo (start + p * (1 - start)) c)
    ∧ (∀ (u : ImageZoom) (start : ℚ) (c : Point),
        u.updateProgress (.zoomProgress start 1 c) 1 = u.scaleTo 1 c)
    ∧ (∀ (u : ImageZoom) (a b : Point), (u.updateProgress (.offsetProgress a b) 1).offset = b)
    ∧ (s.sanitize now).zoomFactor = s.zoomFactor
    ∧ (s.sanitize now).offset = s.offset
    ∧ (s.sanitize now).frames.length ≤ s.frames.length + 1 := by
  refine ⟨?_, ?_, ?_, fun u start p c => rfl, ?_, ?_, sanitize_zoomFactor s now,
    sanitize_offset s now, ?_⟩
  · intro h
    unfold ImageZoom.sanitize
    rw [if_pos h]
    exact ⟨rfl, rfl⟩
  · intro h hne
    have hins : s.isInsaneOffset s.offset = true := by
      unfold ImageZoom.isInsaneOffset
      rw [decide_eq_true_iff]
      by_contra hcon
      rw [not_or, not_not, not_not] at hcon
      apply hne
      cases hp : s.offset with
      | mk x y =>
        cases hq : s.sanitizeOffset ⟨x, y⟩ with
        | mk a b =>
          rw [hp, hq] at hcon
          simp only at hcon
          rw [hcon.1, hcon.2]
    unfold ImageZoom.sanitize
    rw [if_neg h, if_pos hins]
    exact ⟨rfl, rfl⟩
  · intro h heq
    have hins : ¬ s.isInsaneOffset s.offset = true := by
      unfold ImageZoom.isInsaneOffset
      rw [decide_eq_true_iff, heq]
      simp
    unfold ImageZoom.sanitize
    rw [if_neg h, if_neg hins]
  · intro u start c
    show u.scaleTo (start + 1 * (1 - start)) c = u.scaleTo 1 c
    have : start + 1 * (1 - start) = 1 := by ring
    rw [this]
  · intro u a b
    show (⟨a.x + 1 * (b.x - a.x), a.y + 1 * (b.y - a.y)⟩ : Point) = b
    cases b with
    | mk bx bz =>
      rw [Point.mk.injEq]
      constructor <;> ring
  · unfold ImageZoom.sanitize
    split_ifs
    · show (s.frames ++ [_]).length ≤ _
      rw [List.length_append]; rfl
    · show (s.frames ++ [_]).length ≤ _
      rw [List.length_append]; rfl
    · exact Nat.le_succ _

/-- C13, the specification's scenario: with `zoomOutFactor = 1.3`, ending at
zoom factor 1.1 schedules the zoom-out animation anchored at
`getCurrentZoomCenter()`. -/
theorem sanitize_decision_witness :
    (((construct defaults 300 200 0 0).scale (11 / 10) ⟨50, 50⟩).sanitize 1000).frames
      = [⟨1000, 300, .zoomProgress (11 / 10) 1
          ((construct defaults 300 200 0 0).scale (11 / 10) ⟨50, 50⟩).getCurrentZoomCenter⟩] :=
  ((sanitize_decision ((construct defaults 300 200 0 0).scale (11 / 10) ⟨50, 50⟩) 1000).1
    (by decide!)).1.trans (by decide!)

/-! ### The current zoom centre -/

theorem center_formula (W z L : ℚ) (hW : 0 < W) (hz : z ≠ 1) (hR : W * z - L - W ≠ 0) :
    L / (W * z - L - W) * W / (L / (W * z - L - W) + 1) = L / (z - 1) := by
  have hz' : z - 1 ≠ 0 := sub_ne_zero.mpr hz
  have h1 : L / (W * z - L - W) + 1 = W * (z - 1) / (W * z - L - W) := by
    field_simp
    ring
  rw [h1]
  field_simp
  ring

theorem getCurrentZoomCenter_x (s : ImageZoom) :
    s.getCurrentZoomCenter.x
      = if s.containerX * s.zoomFactor - s.offset.x - s.containerX = 0 then s.containerX
        else s.offset.x / (s.containerX * s.zoomFactor - s.offset.x - s.containerX)
              * s.containerX
              / (s.offset.x / (s.containerX * s.zoomFactor - s.offset.x - s.containerX) + 1) :=
  rfl

theorem getCurrentZoomCenter_y (s : ImageZoom) :
    s.getCurrentZoomCenter.y
      = if s.containerY * s.zoomFactor - s.offset.y - s.containerY = 0 then s.containerY
        else s.offset.y / (s.containerY * s.zoomFactor - s.offset.y - s.containerY)
              * s.containerY
              / (s.offset.y / (s.containerY * s.zoomFactor - s.offset.y - s.containerY) + 1) :=
  rfl

theorem center_inverts (W z L c : ℚ) (hW : 0 < W) (hz : z ≠ 1)
    (hc : c = if W * z - L - W = 0 then W
              else L / (W * z - L - W) * W / (L / (W * z - L - W) + 1)) :
    (W * z - L - W = 0 → c = W)
    ∧ (W * z - L - W ≠ 0 → L * (W - c) = (W * z - L - W) * c ∧ c = L / (z - 1))
    ∧ c * (z - 1) = L := by
  have hz' : z - 1 ≠ 0 := sub_ne_zero.mpr hz
  by_cases hR : W * z - L - W = 0
  · rw [if_pos hR] at hc
    refine ⟨fun _ => hc, fun h => absurd hR h, ?_⟩
    rw [hc]
    linarith
  · rw [if_neg hR, center_formula W z L hW hz hR] at hc
    refine ⟨fun h => absurd h hR, fun _ => ⟨?_, hc⟩, ?_⟩
    · rw [hc]
      field_simp
      ring
    · rw [hc]
      field_simp

/-- C14: for a container of width `W > 0` and a state with zoom factor `z`
and offset `o`, with `offsetRight = W * z - o.x - W`: if `offsetRight = 0` the
returned `centerX` is `W`; otherwise, for `z ≠ 1`, it satisfies
`o.x * (W - centerX) = offsetRight * centerX` and equals `o.x / (z - 1)`.  The
same holds for `y` with the container height. -/
theorem getCurrentZoomCenter_inverts_ratio (s : ImageZoom)
    (hw : 0 < s.containerX) (hh : 0 < s.containerY) :
    (s.containerX * s.zoomFactor - s.offset.x - s.containerX = 0 →
      s.getCurrentZoomCenter.x = s.containerX)
    ∧ (s.containerX * s.zoomFactor - s.offset.x - s.containerX ≠ 0 → s.zoomFactor ≠ 1 →
      s.offset.x * (s.containerX - s.getCurrentZoomCenter.x)
          = (s.containerX * s.zoomFactor - s.offset.x - s.containerX)
              * s.getCurrentZoomCenter.x
      ∧ s.getCurrentZoomCenter.x = s.offset.x / (s.zoomFactor - 1))
    ∧ (s.containerY * s.zoomFactor - s.offset.y - s.containerY = 0 →
      s.getCurrentZoomCenter.y = s.containerY)
    ∧ (s.containerY * s.zoomFactor - s.offset.y - s.containerY ≠ 0 → s.zoomFactor ≠ 1 →
      s.offset.y * (s.containerY - s.getCurrentZoomCenter.y)
          = (s.containerY * s.zoomFactor - s.offset.y - s.containerY)
              * s.getCurrentZoomCenter.y
      ∧ s.getCurrentZoomCenter.y = s.offset.y / (s.zoomFactor - 1)) := by
  refine ⟨?_, ?_, ?_, ?_⟩
  · intro h
    rw [getCurrentZoomCenter_x, if_pos h]
  · intro h hz
    exact (center_inverts _ _ _ _ hw hz (getCurrentZoomCenter_x s)).2.1 h
  · intro h
    rw [getCurrentZoomCenter_y, if_pos h]
  · intro h hz
    exact (center_inverts _ _ _ _ hh hz (getCurrentZoomCenter_y s)).2.1 h

/-- C14 at zoom factor 2 in a 300 by 200 container: with offset `{100, 200}`
the centre is `{100, 200}` (`offsetBottom = 0` gives the container height). -/
theorem getCurrentZoomCenter_inverts_ratio_witness :
    (({ construct defaults 300 200 0 0 with zoomFactor := 2, offset := ⟨100, 200⟩ } :
        ImageZoom).getCurrentZoomCenter.x = 100 / (2 - 1))
    ∧ (({ construct defaults 300 200 0 0 with zoomFactor := 2, offset := ⟨100, 200⟩ } :
        ImageZoom).getCurrentZoomCenter.y = 200) :=
  ⟨((getCurrentZoomCenter_inverts_ratio
      ({ construct defaults 300 200 0 0 with zoomFactor := 2, offset := ⟨100, 200⟩ } :
        ImageZoom) (by decide!) (by decide!)).2.1 (by decide!) (by decide!)).2,
   (getCurrentZoomCenter_inverts_ratio
      ({ construct defaults 300 200 0 0 with zoomFactor := 2, offset := ⟨100, 200⟩ } :
        ImageZoom) (by decide!) (by decide!)).2.2.1 (by decide!)⟩

/-! ### `canDrag`, the round trip of `scale`, and `drag` -/

/-- C17: for every zoom factor `z`, `canDrag()` is false iff
`0.99 < z < 1.01` (bounds exclusive) and true otherwise; it is false at 1 and
true at 0.98, 1.02 and 2. -/
theorem canDrag_tolerance (s : ImageZoom) :
    (s.canDrag = false ↔ (99 / 100 < s.zoomFactor ∧ s.zoomFactor < 101 / 100))
    ∧ (s.canDrag = true ↔ ¬ (99 / 100 < s.zoomFactor ∧ s.zoomFactor < 101 / 100))
    ∧ ({ s with zoomFactor := 1 } : ImageZoom).canDrag = false
    ∧ ({ s with zoomFactor := 98 / 100 } : ImageZoom).canDrag = true
    ∧ ({ s with zoomFactor := 102 / 100 } : ImageZoom).canDrag = true
    ∧ ({ s with zoomFactor := 2 } : ImageZoom).canDrag = true := by
  have key : ∀ t : ImageZoom,
      t.canDrag = false ↔ (99 / 100 < t.zoomFactor ∧ t.zoomFactor < 101 / 100) := by
    intro t
    unfold ImageZoom.canDrag isCloseTo
    simp only [Bool.not_eq_false', decide_eq_true_iff, gt_iff_lt]
    constructor
    · rintro ⟨a, b⟩
      constructor <;> linarith
    · rintro ⟨a, b⟩
      constructor <;> linarith
  refine ⟨key s, ?_, ?_, ?_, ?_, ?_⟩
  · rw [← key s]
    cases s.canDrag <;> simp
  · rw [key]
    constructor <;> norm_num
  · rw [← Bool.not_eq_false, key]
    norm_num
  · rw [← Bool.not_eq_false, key]
    norm_num
  · rw [← Bool.not_eq_false, key]
    norm_num

/-- C18: over exact arithmetic, for a state with zoom factor `z > 0` in
`[minZoom, maxZoom]`, a centre `c` and a relative factor `r ≠ 0` with `z * r`
in `[minZoom, maxZoom]`, `scale(r, c)` followed by
`scale(1 / appliedFactor, c)`, where `appliedFactor` is the ratio returned by
`scaleZoomFactor`, restores the zoom factor and the offset. -/
theorem scale_round_trip (s : ImageZoom) (r : ℚ) (c : Point)
    (hz : 0 < s.zoomFactor) (hr : r ≠ 0)
    (hlo : s.options.minZoom ≤ s.zoomFactor) (hhi : s.zoomFactor ≤ s.options.maxZoom)
    (hlo' : s.options.minZoom ≤ s.zoomFactor * r)
    (hhi' : s.zoomFactor * r ≤ s.options.maxZoom) :
    (s.scaleZoomFactor r).2 = r
    ∧ ((s.scale r c).scale (1 / (s.scaleZoomFactor r).2) c).zoomFactor = s.zoomFactor
    ∧ ((s.scale r c).scale (1 / (s.scaleZoomFactor r).2) c).offset = s.offset := by
  have hz1 : (s.scale r c).zoomFactor = s.zoomFactor * r := by
    rw [scale_zoomFactor, max_eq_left hlo', min_eq_right hhi']
  have ha : (s.scaleZoomFactor r).2 = r := by
    show min s.options.maxZoom (max (s.zoomFactor * r) s.options.minZoom) / s.zoomFactor = r
    rw [max_eq_left hlo', min_eq_right hhi']
    field_simp
  have hback : s.zoomFactor * r * (1 / r) = s.zoomFactor := by
    field_simp
  have hz2 : ((s.scale r c).scale (1 / (s.scaleZoomFactor r).2) c).zoomFactor
      = s.zoomFactor := by
    rw [ha, scale_zoomFactor, hz1, hback, scale_options, max_eq_left hlo, min_eq_right hhi]
  refine ⟨ha, hz2, ?_⟩
  rw [scale_offset, hz2, hz1, scale_offset, hz1]
  cases ho : s.offset with
  | mk x y =>
    rw [Point.mk.injEq]
    constructor
    · simp only
      field_simp
      ring
    · simp only
      field_simp
      ring

/-- C18 with the default options: zoom factor 1, offset `{2, 3}`, factor 2
about `{5, 7}` and back. -/
theorem scale_round_trip_witness :
    ((({ construct defaults 300 200 0 0 with offset := ⟨2, 3⟩ } : ImageZoom).scale 2
        ⟨5, 7⟩).scale (1 / 2) ⟨5, 7⟩).zoomFactor = 1
    ∧ ((({ construct defaults 300 200 0 0 with offset := ⟨2, 3⟩ } : ImageZoom).scale 2
        ⟨5, 7⟩).scale (1 / 2) ⟨5, 7⟩).offset = ⟨2, 3⟩ := by
  have h := scale_round_trip
    ({ construct defaults 300 200 0 0 with offset := ⟨2, 3⟩ } : ImageZoom) 2 ⟨5, 7⟩
    (by decide!) (by decide!) (by decide!) (by decide!) (by decide!) (by decide!)
  rw [h.1] at h
  exact ⟨h.2.1, h.2.2⟩

/-- C19: `drag(center, previousCenter)` leaves the whole state unchanged when
there is no previous centre.  Otherwise, with `lockDragAxis` off,
`offset' = offset - (center - previousCenter)` on both axes; with
`lockDragAxis` on, only `x` changes, by `-(center.x - previous.x)`, when
`|dx| > |dy|`, and only `y`, by `-(center.y - previous.y)`, otherwise.  The
zoom factor is unchanged in every case. -/
theorem drag_operation (s : ImageZoom) (center previous : Point) :
    s.drag center none = s
    ∧ (s.options.lockDragAxis = false →
        (s.drag center (some previous)).offset
          = ⟨s.offset.x - (center.x - previous.x), s.offset.y - (center.y - previous.y)⟩)
    ∧ (s.options.lockDragAxis = true →
        |center.x - previous.x| > |center.y - previous.y| →
        (s.drag center (some previous)).offset
          = ⟨s.offset.x - (center.x - previous.x), s.offset.y⟩)
    ∧ (s.options.lockDragAxis = true →
        ¬ |center.x - previous.x| > |center.y - previous.y| →
        (s.drag center (some previous)).offset
          = ⟨s.offset.x, s.offset.y - (center.y - previous.y)⟩)
    ∧ ∀ last : Option Point, (s.drag center last).zoomFactor = s.zoomFactor := by
  refine ⟨rfl, ?_, ?_, ?_, fun last => drag_zoomFactor s center last⟩
  · intro h
    unfold ImageZoom.drag
    simp only [h, Bool.false_eq_true, if_false]
    show (⟨_, _⟩ : Point) = _
    rw [Point.mk.injEq]
    constructor <;> ring
  · intro h hgt
    unfold ImageZoom.drag
    simp only [h, if_true, hgt]
    show (⟨_, _⟩ : Point) = _
    rw [Point.mk.injEq]
    constructor <;> ring
  · intro h hgt
    unfold ImageZoom.drag
    simp only [h, if_true, hgt, if_false]
    show (⟨_, _⟩ : Point) = _
    rw [Point.mk.injEq]
    constructor <;> ring

/-- C19 on a free drag and on an axis-locked drag with the larger movement
along `x`. -/
theorem drag_operation_witness :
    ((construct defaults 300 200 0 0).drag ⟨7, 3⟩ (some ⟨1, 1⟩)).offset = ⟨0 - (7 - 1), 0 - (3 - 1)⟩
    ∧ ((construct { defaults with lockDragAxis := true } 300 200 0 0).drag ⟨7, 3⟩
        (some ⟨1, 1⟩)).offset = ⟨0 - (7 - 1), 0⟩ :=
  ⟨(drag_operation (construct defaults 300 200 0 0) ⟨7, 3⟩ ⟨1, 1⟩).2.1 (by decide!),
   (drag_operation (construct { defaults with lockDragAxis := true } 300 200 0 0)
      ⟨7, 3⟩ ⟨1, 1⟩).2.2.1 (by decide!) (by decide!)⟩

/-! ### Zooming out about the current zoom centre -/

theorem AnchoredAt.scaleTo {c : Point} {u : ImageZoom} (h : AnchoredAt c u) (f : ℚ)
    (hz : 0 < u.zoomFactor) : AnchoredAt c (u.scaleTo f c) := by
  unfold AnchoredAt at *
  unfold ImageZoom.scaleTo
  rw [scale_offset, h, Point.mk.injEq]
  constructor
  · simp only
    field_simp
    ring
  · simp only
    field_simp
    ring

theorem updateProgress_frames (u : ImageZoom) (f : FrameFn) (p : ℚ) :
    (u.updateProgress f p).frames = u.frames := by
  cases f <;> rfl

theorem updateProgress_inAnimation (u : ImageZoom) (f : FrameFn) (p : ℚ) :
    (u.updateProgress f p).inAnimation = u.inAnimation := by
  cases f <;> rfl

theorem updateProgress_frameCalls (u : ImageZoom) (f : FrameFn) (p : ℚ) :
    (u.updateProgress f p).frameCalls = u.frameCalls := by
  cases f <;> rfl

theorem renderFrame_stopped (u : ImageZoom) (swing : ℚ → ℚ) (now : Int) (r : RenderFrame)
    (h : u.inAnimation = false) : u.renderFrame swing now r = u := by
  unfold ImageZoom.renderFrame
  simp [h]

theorem renderFrame_running (u : ImageZoom) (swing : ℚ → ℚ) (now : Int) (r : RenderFrame)
    (h : u.inAnimation = true) (hlt : r.frameTime now < r.duration) :
    (u.renderFrame swing now r).frameCalls
        = u.frameCalls ++ [(r, swing (r.frameTime now / r.duration))]
    ∧ (u.renderFrame swing now r).frames = u.frames ++ [r]
    ∧ (u.renderFrame swing now r).inAnimation = true := by
  unfold RenderFrame.frameTime at hlt
  unfold ImageZoom.renderFrame
  simp only [h, Bool.not_true, Bool.false_eq_true, if_false, ge_iff_le, not_le.mpr hlt]
  refine ⟨?_, ?_, ?_⟩
  · show (u.updateProgress _ _).frameCalls ++ _ = _
    rw [updateProgress_frameCalls]
    rfl
  · show (u.updateProgress _ _).frames ++ _ = _
    rw [updateProgress_frames]
  · show (u.updateProgress _ _).inAnimation = true
    rw [updateProgress_inAnimation, h]

theorem renderFrame_final (u : ImageZoom) (swing : ℚ → ℚ) (now : Int) (r : RenderFrame)
    (h : u.inAnimation = true) (hge : r.duration ≤ r.frameTime now) :
    (u.renderFrame swing now r).frameCalls = u.frameCalls ++ [(r, 1)]
    ∧ (u.renderFrame swing now r).frames = u.frames
    ∧ (u.renderFrame swing now r).inAnimation = false := by
  unfold RenderFrame.frameTime at hge
  unfold ImageZoom.renderFrame
  simp only [h, Bool.not_true, Bool.false_eq_true, if_false, ge_iff_le, hge, if_true]
  refine ⟨?_, ?_, rfl⟩
  · show (u.updateProgress _ _).frameCalls ++ _ = _
    rw [updateProgress_frameCalls]
  · show (u.updateProgress _ _).frames = _
    rw [updateProgress_frames]

/-- C16, as the code behaves: when `animate` is called while an earlier frame
loop is scheduled, with no `stopAnimation` in between, both loops are
scheduled afterwards.  On a later frame before either reaches its duration
both per-frame updates run, the earlier first, and both stay scheduled.  On the
frame on which the earlier loop reaches its duration it makes its final call
and clears the shared flag, so the newer loop ends on that frame with no
update. -/
theorem second_animation_runs_alongside (u : ImageZoom) (r1 : RenderFrame) (swing : ℚ → ℚ)
    (now : Int) (duration : ℚ) (f : FrameFn) (t : Int) (hq : u.frames = [r1]) :
    (u.animate now duration f).frames = [r1, ⟨now, duration, f⟩]
    ∧ (r1.frameTime t < r1.duration → ((t - now : Int) : ℚ) < duration →
        ((u.animate now duration f).animationFrame swing t).frameCalls
            = u.frameCalls ++ [(r1, swing (r1.frameTime t / r1.duration)),
                (⟨now, duration, f⟩, swing (((t - now : Int) : ℚ) / duration))]
        ∧ ((u.animate now duration f).animationFrame swing t).frames
            = [r1, ⟨now, duration, f⟩]
        ∧ ((u.animate now duration f).animationFrame swing t).inAnimation = true)
    ∧ (r1.duration ≤ r1.frameTime t →
        ((u.animate now duration f).animationFrame swing t).frameCalls
            = u.frameCalls ++ [(r1, 1)]
        ∧ ((u.animate now duration f).animationFrame swing t).frames = []
        ∧ ((u.animate now duration f).animationFrame swing t).inAnimation = false) := by
  have hframes : (u.animate now duration f).frames = [r1, ⟨now, duration, f⟩] := by
    show u.frames ++ _ = _
    rw [hq]
    rfl
  have hstep : (u.animate now duration f).animationFrame swing t
      = ((({ u.animate now duration f with frames := [] } : ImageZoom).renderFrame swing t
          r1).renderFrame swing t ⟨now, duration, f⟩) := by
    unfold ImageZoom.animationFrame
    rw [hframes]
    rfl
  refine ⟨hframes, ?_, ?_⟩
  · intro h1 h2
    obtain ⟨a, b, c⟩ := renderFrame_running
      ({ u.animate now duration f with frames := [] } : ImageZoom) swing t r1 rfl h1
    obtain ⟨a', b', c'⟩ := renderFrame_running _ swing t ⟨now, duration, f⟩ c h2
    rw [hstep]
    refine ⟨?_, ?_, c'⟩
    · rw [a', a]
      show u.frameCalls ++ _ ++ _ = _
      rw [List.append_assoc]
      rfl
    · rw [b', b]
      rfl
  · intro h1
    obtain ⟨a, b, c⟩ := renderFrame_final
      ({ u.animate now duration f with frames := [] } : ImageZoom) swing t r1 rfl h1
    rw [hstep, renderFrame_stopped _ swing t _ c]
    exact ⟨a, b, c⟩

/-- C16 fails as stated: after a double tap at 1000, a frame at 1100 and a
second double tap at 1200 two loops are scheduled.  On the frame at 1250 the
per-frame updates of both run, the earlier one first.  On the frame at 1300 the
earlier loop makes its final call and stops the animation flag: the newer
loop, 100 ms into its 300 ms, is ended and makes no further call. -/
theorem earlier_animation_keeps_running :
    tappedTwice.frames.map (fun r => r.startTime) = [1000, 1200]
    ∧ frameStarts tappedTwice (tappedTwice.animationFrame (fun p => p) 1250) = [1000, 1200]
    ∧ frameStarts (tappedTwice.animationFrame (fun p => p) 1250)
        ((tappedTwice.animationFrame (fun p => p) 1250).animationFrame (fun p => p) 1300)
        = [1000]
    ∧ ((tappedTwice.animationFrame (fun p => p) 1250).animationFrame
        (fun p => p) 1300).frames = []
    ∧ ((tappedTwice.animationFrame (fun p => p) 1250).animationFrame
        (fun p => p) 1300).inAnimation = false
    ∧ frameStarts tappedTwice
        ((tappedTwice.animationFrame (fun p => p) 1250).animationFrames (fun p => p)
          [1300, 1400, 1500, 1600]) = [1000, 1200, 1000] := by
  decide!

/-- C16 (amended) on a second animation started at 1200 while the one started
at 1000 is scheduled: the frame at 1250 runs both updates, and the frame at 1300
runs only the final call of the earlier one and empties the queue. -/
theorem second_animation_runs_alongside_witness :
    ((({ construct defaults 300 200 0 0 with
          frames := [⟨1000, 300, .zoomProgress 1 2 ⟨50, 50⟩⟩] } : ImageZoom).animate 1200 300
        (.zoomProgress 2 1 ⟨50, 50⟩)).animationFrame (fun p => p) 1250).frameCalls
      = [(⟨1000, 300, .zoomProgress 1 2 ⟨50, 50⟩⟩, 250 / 300),
         (⟨1200, 300, .zoomProgress 2 1 ⟨50, 50⟩⟩, 50 / 300)]
    ∧ ((({ construct defaults 300 200 0 0 with
          frames := [⟨1000, 300, .zoomProgress 1 2 ⟨50, 50⟩⟩] } : ImageZoom).animate 1200 300
        (.zoomProgress 2 1 ⟨50, 50⟩)).animationFrame (fun p => p) 1300).frames = [] :=
  ⟨((second_animation_runs_alongside
      ({ construct defaults 300 200 0 0 with
          frames := [⟨1000, 300, .zoomProgress 1 2 ⟨50, 50⟩⟩] } : ImageZoom)
      ⟨1000, 300, .zoomProgress 1 2 ⟨50, 50⟩⟩ (fun p => p) 1200 300
      (.zoomProgress 2 1 ⟨50, 50⟩) 1250 rfl).2.1 (by decide!) (by decide!)).1.trans
      (by decide!),
   ((second_animation_runs_alongside
      ({ construct defaults 300 200 0 0 with
          frames := [⟨1000, 300, .zoomProgress 1 2 ⟨50, 50⟩⟩] } : ImageZoom)
      ⟨1000, 300, .zoomProgress 1 2 ⟨50, 50⟩⟩ (fun p => p) 1200 300
      (.zoomProgress 2 1 ⟨50, 50⟩) 1300 rfl).2.2 (by decide!)).2.1⟩

end ZoomingElement
